import Mathlib

/-! TabManager (src/gui/TabManager.cc): save pipeline, close confirmation, registry,
opening files and switching tabs

A shallow embedding of the tab manager of the editor window.

* Objects reached through pointers (`EditorInterface *`) live in a heap indexed
  by `EditorId`; the parameter widget owned by an editor is folded into the
  editor record.
* The toolkit and the main window (dialogs, `QSaveFile`, `QTextStream`,
  `QFileInfo`, the translation function `_`, `par->...`) are an `Env`: its
  answers are functions of the history of calls, so two calls of the same
  routine may answer differently.
* Every call that leaves the tab manager is appended to `World.trace`.
* `TabWidget`, `EditorInterface` and `ParameterWidget` are classes of the
  repository whose code is not in this file; the few methods used are modelled
  and say so.
* Slots such as `tabSwitched` and `setTabModified` run when the toolkit
  delivers a signal; the functions below are the bodies as written in the
  source, signal delivery is not part of them.
* A read the language leaves undefined is kept as a step of its own: the read
  of a destroyed temporary in `saveError` is the call `readFreed`, and what it
  yields is an answer of the `Env`.
-/

namespace TabManager

/-- An `EditorInterface *`: the identity of an editor widget. -/
abbrev EditorId := Nat

/-- The values of `QMessageBox::StandardButton` that the tab manager offers or tests. -/
inductive StandardButton
  | Save
  | SaveAll
  | Discard
  | Cancel
  | Yes
  | No
  deriving DecidableEq, Repr

/-- How `par->parseTopLevelDocument()` ends inside `openTabFile`. -/
inductive ParseOutcome
  | ok
  | hardWarning
  | stdException (what : String)
  | unknownException
  deriving DecidableEq, Repr

/-- The state of one editor together with its `parameterWidget`. -/
structure EditorInterface where
  /-- Field `edt->filepath`. -/
  filepath : String
  /-- Value of `edt->toPlainText()`. -/
  text : String
  /-- Value of `edt->isContentModified()`. -/
  contentModified : Bool
  /-- Value of `edt->parameterWidget->isModified()`. -/
  paramModified : Bool
  /-- Field `edt->contentsRendered`. -/
  contentsRendered : Bool
  /-- Enabled state of `edt->parameterWidget`. -/
  paramEnabled : Bool
  deriving DecidableEq, Repr

/-- One tab of the tab widget: the editor it shows, its label and its tool tip. -/
structure Tab where
  widget : EditorId
  text : String
  toolTip : String
  deriving DecidableEq, Repr

/-- A call that leaves the tab manager, with the answer it got where it has one. -/
inductive Event
  /-- A call `par->method(arg)` on the main window. -/
  | par (method : String) (arg : String)
  /-- A `LOG(fmt, arg)` line. -/
  | log (fmt : String) (arg : String)
  /-- The call `QSaveFile(path).open(WriteOnly | Truncate | Text)` and its result. -/
  | saveFileOpen (path : String) (ok : Bool)
  /-- The calls `writer << text; writer.flush()` and whether `writer.status()` is `Ok` afterwards. -/
  | streamWrite (path : String) (text : String) (statusOk : Bool)
  /-- The call `file.commit()` and its result. -/
  | commit (path : String) (ok : Bool)
  /-- The call `file.cancelWriting()`. -/
  | cancelWriting (path : String)
  /-- The `QMessageBox::warning` of `saveError`. -/
  | warning (msg : String) (path : String)
  /-- A read through `fileName`, which line 636 of `saveError` points into the
  `QByteArray` that `filepath.toLocal8Bit()` returned and that is destroyed at
  the end of that line: a use after free, undefined behaviour. -/
  | readFreed (path : String)
  /-- The call `edt->parameterWidget->saveFile(path)`. -/
  | parameterSaveFile (edt : EditorId) (path : String)
  /-- The call `edt->parameterWidget->readFile(path)`. -/
  | parameterReadFile (edt : EditorId) (path : String)
  /-- The call `edt->setContentModified(b)`. -/
  | setContentModified (edt : EditorId) (b : Bool)
  /-- The call `edt->parameterWidget->setModified(b)`. -/
  | setModified (edt : EditorId) (b : Bool)
  /-- The call `QFileDialog::getSaveFileName(par, title, dir, filter)` and the name it returned. -/
  | getSaveFileName (title : String) (dir : String) (result : String)
  /-- The overwrite question of `saveAs` and its answer. -/
  | overwriteQuestion (text : String) (file : String) (answer : StandardButton)
  /-- The confirmation box of `maybeSave` or `shouldClose`, a `QMessageBox` run
  with `box.exec()`, and its answer. -/
  | confirmBox (text : String) (informative : String) (answer : StandardButton)
  /-- The call `QDir::setCurrent(dir)`. -/
  | setCurrentDir (dir : String)
  deriving DecidableEq, Repr

/-- The collaborators of the tab manager. Each answer may depend on the
history of calls so far, which is the first argument where there is one. -/
structure Env where
  /-- The translation function `_(...)`. -/
  tr : String → String
  /-- Result of `QSaveFile::open` for writing. -/
  saveFileOpen : List Event → String → Bool
  /-- Whether `QTextStream::status()` is `Ok` after writing the text and flushing. -/
  streamStatusOk : List Event → String → String → Bool
  /-- Result of `QSaveFile::commit`. -/
  commit : List Event → String → Bool
  /-- What `ParameterWidget::saveFile` does to the file system. -/
  parameterSaveFile : EditorInterface → String → (String → Option String) → (String → Option String)
  /-- What `ParameterWidget::readFile` does to the state of the parameter widget. -/
  parameterReadFile : EditorInterface → String → (String → Option String) → EditorInterface
  /-- What `EditorInterface::setPlainText` does to the editor record besides
  storing the text. -/
  setPlainText : EditorInterface → String → EditorInterface
  /-- What a read of the file name through the dangling pointer of line 636
  yields when the program goes on at all: any text. -/
  readFreed : List Event → String → String
  /-- The name chosen in `QFileDialog::getSaveFileName`, empty when the dialog is cancelled. -/
  getSaveFileName : List Event → String → String → String
  /-- The button that closes a message box. -/
  messageBox : List Event → String → StandardButton
  /-- Result of `QFile::open` for reading. -/
  readFileOpen : List Event → String → Bool
  /-- How the top level parse ends. -/
  parse : List Event → ParseOutcome
  /-- `QFileInfo(f).suffix()`. -/
  suffix : String → String
  /-- `QFileInfo(f).fileName()`. -/
  fileName : String → String
  /-- `QFileInfo(f).filePath()`. -/
  filePath : String → String
  /-- `QFileInfo(f).absoluteFilePath()`. -/
  absoluteFilePath : String → String
  /-- `QFileInfo(f).dir().absolutePath()`. -/
  absoluteDir : String → String
  /-- `QString::toLower`. -/
  toLower : String → String
  /-- `QString::arg` with one argument. -/
  arg : String → String → String
  /-- The record of a freshly constructed `ScintillaEditor` with its new `ParameterWidget`. -/
  newEditor : EditorInterface
  /-- The current index the tab widget picks after `removeTab`, from the old
  current index, the removed index and the old number of tabs. -/
  currentAfterRemove : Int → Nat → Nat → Int

/-- The tab manager, the objects it points to, and the file system. -/
structure World where
  /-- The heap of editors. -/
  editors : EditorId → EditorInterface
  /-- The next address handed out by `new ScintillaEditor`. -/
  nextId : EditorId
  /-- Member `editorList`, a `QSet<EditorInterface *>`, in its iteration order. -/
  editorList : List EditorId
  /-- The tabs of `tabWidget`, in index order. -/
  tabs : List Tab
  /-- Value of `tabWidget->currentIndex()`. -/
  currentIndex : Int
  /-- Member `editor`, the current editor. -/
  editor : EditorId
  /-- Field `par->activeEditor`. -/
  activeEditor : EditorId
  /-- Title of the main window. -/
  windowTitle : String
  /-- Field `par->knownFileExtensions`. -/
  knownFileExtensions : String → Option String
  /-- Content of the files on disk, by path. -/
  fs : String → Option String
  /-- The calls made so far, oldest first. -/
  trace : List Event

/-- Append one call to the history. -/
def World.emit (w : World) (ev : Event) : World :=
  { w with trace := w.trace ++ [ev] }

/-- Store a new record for the editor `edt`. -/
def World.setEditor (w : World) (edt : EditorId) (v : EditorInterface) : World :=
  { w with editors := fun i => if i = edt then v else w.editors i }

/-- The calls made between the state `w` and the later state `w'`. -/
def newEvents (w w' : World) : List Event :=
  w'.trace.drop w.trace.length

/-- The test `edt->isContentModified() || edt->parameterWidget->isModified()`. -/
def isModified (w : World) (edt : EditorId) : Bool :=
  (w.editors edt).contentModified || (w.editors edt).paramModified

/-! ## QString::replace -/

/-- Worker of `QString::replace(before, after)` for the non-empty pattern
`b :: bs`: scan left to right, replace each occurrence and resume after it.
The counter is the number of characters of a matched occurrence still to skip. -/
def replaceAux (b : Char) (bs after : List Char) : Nat → List Char → List Char
  | _, [] => []
  | skip + 1, _ :: cs => replaceAux b bs after skip cs
  | 0, c :: cs =>
    if (b :: bs).isPrefixOf (c :: cs) then after ++ replaceAux b bs after bs.length cs
    else c :: replaceAux b bs after 0 cs

/-- The call `s.replace("&", "&&")` of `setTabName` and `setTabModified`. -/
def escapeAmp (s : String) : String :=
  ⟨replaceAux '&' [] ['&', '&'] 0 s.data⟩

/-- The call `s.replace("&&", "&")` of `tabSwitched`. -/
def unescapeAmp (s : String) : String :=
  ⟨replaceAux '&' ['&'] ['&'] 0 s.data⟩

/-! ## Tab widget -/

/-- The editors shown as tabs, in index order. -/
def tabEditors (w : World) : List EditorId :=
  w.tabs.map Tab.widget

/-- Modelled from the spec: `TabWidget` (gui/TabWidget.h) is not under src/;
it is the "tabbed container" of the glossary, a sequence of tabs that each
show one editor widget. This is `tabWidget->widget(x)`: the editor at index
`x`, none (a null pointer) when there is no such tab. -/
def widget (w : World) (x : Nat) : Option EditorId :=
  (tabEditors w)[x]?

/-- Modelled from the spec: `tabWidget->indexOf(edt)` of the absent `TabWidget`,
the index of the tab that shows `edt`; none stands for `-1`. -/
def indexOf (w : World) (edt : EditorId) : Option Nat :=
  (tabEditors w).indexOf? edt

/-- Modelled from the spec: `tabWidget->setTabText(idx, s)` of the absent
`TabWidget` sets the label of the tab at `idx` and does nothing for an index
without tab. -/
def setTabText (idx : Option Nat) (s : String) (w : World) : World :=
  match idx with
  | none => w
  | some i =>
    match w.tabs[i]? with
    | none => w
    | some t => { w with tabs := w.tabs.set i { t with text := s } }

/-- Modelled from the spec: `tabWidget->setTabToolTip(idx, s)` of the absent
`TabWidget` sets the tool tip of the tab at `idx` and does nothing for an
index without tab. -/
def setTabToolTip (idx : Option Nat) (s : String) (w : World) : World :=
  match idx with
  | none => w
  | some i =>
    match w.tabs[i]? with
    | none => w
    | some t => { w with tabs := w.tabs.set i { t with toolTip := s } }

/-! ## Editor methods -/

/-- Modelled from the spec: `EditorInterface` (gui/Editor.h) is not under src/;
the glossary gives a tab "a modified flag". This is `edt->setContentModified(b)`,
which stores the flag that `edt->isContentModified()` reads. -/
def setContentModified (edt : EditorId) (b : Bool) (w : World) : World :=
  (w.setEditor edt { w.editors edt with contentModified := b }).emit (.setContentModified edt b)

/-- Modelled from the spec: `ParameterWidget` is not under src/. This is
`edt->parameterWidget->setModified(b)`, which stores the flag that
`edt->parameterWidget->isModified()` reads. -/
def setModified (edt : EditorId) (b : Bool) (w : World) : World :=
  (w.setEditor edt { w.editors edt with paramModified := b }).emit (.setModified edt b)

/-- Modelled from the spec: `edt->setPlainText(s)` of the absent
`EditorInterface` stores the text that `edt->toPlainText()` reads. What else
it does to the editor (its modified flag) is left to the collaborators; the
file path is a member that only the tab manager writes. -/
def setPlainText (env : Env) (edt : EditorId) (s : String) (w : World) : World :=
  w.setEditor edt
    { env.setPlainText (w.editors edt) s with text := s, filepath := (w.editors edt).filepath }

/-- Modelled from the spec: `edt->parameterWidget->readFile(path)` of the absent
`ParameterWidget` reads the parameter sets stored next to the design. What it
does to the parameter widget is left to the collaborators; it touches neither
the text nor the file path of the editor. -/
def parameterReadFile (env : Env) (edt : EditorId) (path : String) (w : World) : World :=
  (w.setEditor edt
    { env.parameterReadFile (w.editors edt) path w.fs with
      text := (w.editors edt).text, filepath := (w.editors edt).filepath }).emit
    (.parameterReadFile edt path)

/-! ## TabManager -/

/-- TabManager::setTabName(filename, edt), lines 520-544; `none` is the default
argument `nullptr`, which stands for the current editor. -/
def setTabName (env : Env) (filename : String) (edt : Option EditorId) (w : World) : World :=
  let edt := edt.getD w.editor
  let r : String × World :=
    if filename = "" then
      let w1 := w.setEditor edt { w.editors edt with filepath := "" }
      let fname := env.tr "Untitled.scad"
      let w2 := setTabText (indexOf w1 edt) fname w1
      (fname, setTabToolTip (indexOf w2 edt) fname w2)
    else
      let w1 := w.setEditor edt { w.editors edt with filepath := env.absoluteFilePath filename }
      let fname := env.fileName filename
      let w2 := setTabText (indexOf w1 edt) (escapeAmp fname) w1
      let w3 := setTabToolTip (indexOf w2 edt) (env.filePath filename) w2
      (fname, w3.emit (.setCurrentDir (env.absoluteDir filename)))
  let w4 := r.2.emit (.par "editorTopLevelChanged" "")
  let w5 := w4.emit (.par "changedTopLevelConsole" "")
  let w6 := w5.emit (.par "parameterTopLevelChanged" "")
  { w6 with windowTitle := r.1 }

/-- TabManager::saveError, lines 634-642. Line 636 keeps in `fileName` the
`constData()` of the temporary `filepath.toLocal8Bit()`, which is destroyed at
the end of that line; the `LOG` of line 637 reads the name through it. That
read is undefined behaviour: it is recorded as `readFreed`, the log line
carries whatever the read yields, and the model goes on to the warning box,
which a run need not reach. -/
def saveError (env : Env) (msg path : String) (w : World) : World :=
  let w1 := w.emit (.readFreed path)
  let w2 := w1.emit (.log msg (env.readFreed w1.trace path))
  w2.emit (.warning msg path)

/-- Modelled from the spec: `QSaveFile` belongs to the toolkit. The glossary
describes it: "write new content to a side file, then replace the target only
if the write fully succeeded". This is `file.commit()` for the target `path`
with `text` in the side file: when it succeeds the side file replaces the
target, when it fails the target is left as it was. -/
def commit (env : Env) (path text : String) (w : World) : Bool × World :=
  let ok := env.commit w.trace path
  (ok, { w with
    fs := if ok then (fun p => if p = path then some text else w.fs p) else w.fs
    trace := w.trace ++ [.commit path ok] })

/-- TabManager::save(EditorInterface *, const QString&), lines 660-698. The
content goes to the side file of a `QSaveFile`; nothing reaches `path` before
`commit`. -/
def savePath (env : Env) (edt : EditorId) (path : String) (w : World) : Bool × World :=
  let w1 := w.emit (.par "setCurrentOutput" "")
  let opened := env.saveFileOpen w1.trace path
  let w2 := w1.emit (.saveFileOpen path opened)
  if !opened then
    (false, saveError env (env.tr "Failed to open file for writing") path w2)
  else
    let text := (w2.editors edt).text
    let statusOk := env.streamStatusOk w2.trace path text
    let w3 := w2.emit (.streamWrite path text statusOk)
    let r : Bool × World :=
      if statusOk then commit env path text w3
      else (false, w3.emit (.cancelWriting path))
    if r.1 then
      let w4 := r.2.emit (.log "Saved design '%1$s'." path)
      let w5 := { w4 with fs := env.parameterSaveFile (w4.editors edt) path w4.fs }.emit
        (.parameterSaveFile edt path)
      let w6 := setContentModified edt false w5
      let w7 := setModified edt false w6
      (true, w7.emit (.par "updateRecentFiles" path))
    else
      (false, saveError env (env.tr "Error saving design") path r.2)

/-- Lines 724-728 of TabManager::saveAs: write to the chosen name and rename the
tab when that worked. -/
def saveAsWrite (env : Env) (edt : EditorId) (filename : String) (w : World) : Bool × World :=
  let r := savePath env edt filename w
  if r.1 then (true, setTabName env filename (some edt) r.2) else (false, r.2)

/-- Line 704 of TabManager::saveAs: the directory the file dialog starts in. -/
def saveAsDir (env : Env) (edt : EditorId) (w : World) : String :=
  if (w.editors edt).filepath = "" then env.tr "Untitled.scad" else (w.editors edt).filepath

/-- Line 705 of TabManager::saveAs: the name the file dialog returns. -/
def saveAsChosen (env : Env) (edt : EditorId) (w : World) : String :=
  env.getSaveFileName w.trace (env.tr "Save File") (saveAsDir env edt w)

/-- The file dialog of TabManager::saveAs as a call with its answer. -/
def saveAsDialog (env : Env) (edt : EditorId) (w : World) : Event :=
  .getSaveFileName (env.tr "Save File") (saveAsDir env edt w) (saveAsChosen env edt w)

/-- Lines 710-711 of TabManager::saveAs: a name without suffix gets `.scad` appended. -/
def saveAsTarget (env : Env) (edt : EditorId) (w : World) : String :=
  if env.suffix (saveAsChosen env edt w) = "" then saveAsChosen env edt w ++ ".scad"
  else saveAsChosen env edt w

/-- Line 718 of TabManager::saveAs: the answer to the overwrite question. -/
def saveAsAnswer (env : Env) (edt : EditorId) (w : World) : StandardButton :=
  env.messageBox (w.trace ++ [saveAsDialog env edt w])
    (env.tr "%1 already exists.\nDo you want to replace it?")

/-- Lines 717-718 of TabManager::saveAs: the overwrite question as a call with its answer. -/
def saveAsQuestion (env : Env) (edt : EditorId) (w : World) : Event :=
  .overwriteQuestion (env.tr "%1 already exists.\nDo you want to replace it?")
    (env.fileName (saveAsTarget env edt w)) (saveAsAnswer env edt w)

/-- TabManager::saveAs, lines 700-729. -/
def saveAs (env : Env) (edt : EditorId) (w : World) : Bool × World :=
  let filename := saveAsChosen env edt w
  let w1 := w.emit (saveAsDialog env edt w)
  if filename = "" then (false, w1)
  else if env.suffix filename = "" then
    let filename := filename ++ ".scad"
    if (w1.fs filename).isSome then
      let w2 := w1.emit (saveAsQuestion env edt w)
      if saveAsAnswer env edt w ≠ StandardButton.Yes then (false, w2)
      else saveAsWrite env edt filename w2
    else saveAsWrite env edt filename w1
  else saveAsWrite env edt filename w1

/-- TabManager::save(EditorInterface *), lines 649-658. -/
def save (env : Env) (edt : EditorId) (w : World) : Bool × World :=
  if (w.editors edt).filepath = "" then saveAs env edt w
  else savePath env edt (w.editors edt).filepath w

/-- Line 589 of TabManager::maybeSave: the button that closes the question. -/
def maybeSaveAnswer (env : Env) (w : World) : StandardButton :=
  env.messageBox w.trace (env.tr "The document has been modified.")

/-- Lines 577-589 of TabManager::maybeSave: the question as a call with its answer. -/
def maybeSaveBox (env : Env) (w : World) : Event :=
  .confirmBox (env.tr "The document has been modified.")
    (env.tr "Do you want to save your changes?") (maybeSaveAnswer env w)

/-- TabManager::maybeSave, lines 573-598; none when there is no tab at index
`x`, where the source dereferences a null pointer. -/
def maybeSave (env : Env) (x : Nat) (w : World) : Option (Bool × World) :=
  match widget w x with
  | none => none
  | some edt =>
    if isModified w edt then
      let ret := maybeSaveAnswer env w
      let w1 := w.emit (maybeSaveBox env w)
      if ret = StandardButton.Save then some (save env edt w1)
      else if ret = StandardButton.Cancel then some (false, w1)
      else some (true, w1)
    else some (true, w)

/-- The loop of TabManager::saveAll over the editors still to visit. -/
def saveAllLoop (env : Env) : List EditorId → World → Bool × World
  | [], w => (true, w)
  | edt :: rest, w =>
    if isModified w edt then
      let r := save env edt w
      if !r.1 then (false, r.2) else saveAllLoop env rest r.2
    else saveAllLoop env rest w

/-- TabManager::saveAll, lines 748-758. -/
def saveAll (env : Env) (w : World) : Bool × World :=
  saveAllLoop env w.editorList w

/-- Line 621 of TabManager::shouldClose: the button that closes the question. -/
def shouldCloseAnswer (env : Env) (w : World) : StandardButton :=
  env.messageBox w.trace (env.tr "Some tabs have unsaved changes.")

/-- Lines 609-621 of TabManager::shouldClose: the question as a call with its answer. -/
def shouldCloseBox (env : Env) (w : World) : Event :=
  .confirmBox (env.tr "Some tabs have unsaved changes.")
    (env.tr "Do you want to save all your changes?") (shouldCloseAnswer env w)

/-- The loop of TabManager::shouldClose over the editors still to visit. -/
def shouldCloseLoop (env : Env) : List EditorId → World → Bool × World
  | [], w => (true, w)
  | edt :: rest, w =>
    if !(isModified w edt) then shouldCloseLoop env rest w
    else
      let ret := shouldCloseAnswer env w
      let w1 := w.emit (shouldCloseBox env w)
      if ret = StandardButton.Cancel then (false, w1)
      else if ret = StandardButton.Discard then (true, w1)
      else if ret = StandardButton.SaveAll then saveAll env w1
      else shouldCloseLoop env rest w1

/-- TabManager::shouldClose, lines 604-632. -/
def shouldClose (env : Env) (w : World) : Bool × World :=
  shouldCloseLoop env w.editorList w

/-- Modelled from the spec: `tabWidget->removeTab(x)` of the absent `TabWidget`
takes the tab at index `x` out and keeps the others in their order; the
current index afterwards is the widget's choice. -/
def removeTab (env : Env) (x : Nat) (w : World) : World :=
  { w with
    tabs := w.tabs.eraseIdx x
    currentIndex := env.currentAfterRemove w.currentIndex x w.tabs.length }

/-- TabManager::closeTabRequested, lines 114-126; none when there is no tab at
index `x`. `editorList.remove(temp)` takes `temp` out of the set. The two
`delete`s at the end free memory and are not modelled: the heap cell of a
closed editor is simply no longer referenced. -/
def closeTabRequested (env : Env) (x : Nat) (w : World) : Option World :=
  match maybeSave env x w with
  | none => none
  | some (false, w1) => some w1
  | some (true, w1) =>
    match widget w1 x with
    | none => none
    | some temp =>
      let w2 := { w1 with editorList := w1.editorList.filter (fun e => e != temp) }
      let w3 := removeTab env x w2
      some (w3.emit (.par "fireTabCountChanged" ""))

/-- TabManager::setContentRenderState, lines 444-448. -/
def setContentRenderState (w : World) : World :=
  w.setEditor w.editor { w.editors w.editor with contentsRendered := false, paramEnabled := false }

/-- TabManager::refreshDocument, lines 546-571. -/
def refreshDocument (env : Env) (w : World) : Bool × World :=
  let w1 := w.emit (.par "setCurrentOutput" "")
  let fp := (w1.editors w1.editor).filepath
  let r : Bool × World :=
    if fp ≠ "" then
      match (if env.readFileOpen w1.trace fp then w1.fs fp else none) with
      | none => (false, w1.emit (.log "Failed to open file %1$s: %2$s" fp))
      | some text =>
        let w2 := w1.emit (.log "Loaded design '%1$s'." fp)
        let w3 :=
          if (w2.editors w2.editor).text ≠ text then
            setContentRenderState (setPlainText env w2.editor text w2)
          else w2
        (true, w3)
    else (false, w1)
  (r.1, r.2.emit (.par "setCurrentOutput" ""))

/-- TabManager::openTabFile, lines 484-518. Reading `knownFileExtensions[suffix]`
through the subscript operator enters the suffix with an empty command when it
was absent. -/
def openTabFile (env : Env) (filename : String) (w : World) : World :=
  let w1 := w.emit (.par "setCurrentOutput" "")
  let w2 := setPlainText env w1.editor "" w1
  let suffix := env.toLower (env.suffix filename)
  let knownFileType := (w2.knownFileExtensions suffix).isSome
  let cmd := (w2.knownFileExtensions suffix).getD ""
  let w3 := { w2 with
    knownFileExtensions := fun s => if s = suffix then some cmd else w2.knownFileExtensions s }
  let w4 :=
    if knownFileType && cmd = "" then
      let v1 := setTabName env filename none w3
      let v2 := parameterReadFile env v1.editor (env.absoluteFilePath filename) v1
      v2.emit (.par "updateRecentFiles" filename)
    else
      let v1 := setTabName env "" none w3
      setPlainText env v1.editor (env.arg cmd filename) v1
  let w5 := w4.emit (.par "fileChangedOnDisk" "")
  let r := refreshDocument env w5
  if r.1 then
    let w6 := r.2.emit (.par "hideCurrentOutput" "")
    let outcome := env.parse w6.trace
    let w7 := w6.emit (.par "parseTopLevelDocument" "")
    let w8 :=
      match outcome with
      | .ok => w7
      | .hardWarning => w7.emit (.par "exceptionCleanup" "")
      | .stdException what => w7.emit (.par "UnknownExceptionCleanup" what)
      | .unknownException => w7.emit (.par "UnknownExceptionCleanup" "")
    (w8.emit (.par "last_compiled_doc" "")).emit (.par "clearCurrentOutput" "")
  else r.2

/-- Modelled from the spec: `tabWidget->addTab(edt, label)` of the absent
`TabWidget` puts the new tab at the end and returns its index; the first tab
of an empty widget becomes the current one (the comment at line 222 says the
widget signals that itself). -/
def addTab (edt : EditorId) (label : String) (w : World) : Nat × World :=
  (w.tabs.length,
    { w with
      tabs := w.tabs ++ [{ widget := edt, text := label, toolTip := "" }]
      currentIndex := if w.tabs.isEmpty then 0 else w.currentIndex })

/-- TabManager::createTab, lines 173-232. The signal connections and the
preference look-ups of lines 178-218 do not touch the modelled state. -/
def createTab (env : Env) (filename : String) (w : World) : World :=
  let edt := w.nextId
  let w1 := { w.setEditor edt env.newEditor with
    nextId := w.nextId + 1, editor := edt, activeEditor := edt }
  let r := addTab edt (env.tr "Untitled.scad") w1
  let w2 := if !r.2.editorList.isEmpty then { r.2 with currentIndex := (r.1 : Int) } else r.2
  let w3 := { w2 with
    editorList := if edt ∈ w2.editorList then w2.editorList else w2.editorList ++ [edt] }
  let w4 := if filename ≠ "" then openTabFile env filename w3 else setTabName env "" none w3
  w4.emit (.par "updateRecentFileActions" "")

/-- Modelled from the spec: `tabWidget->count()` of the absent `TabWidget`, the
number of tabs, as the `int` the source computes with. -/
def count (w : World) : Int :=
  (w.tabs.length : Int)

/-- Modelled from the spec: `tabWidget->setCurrentIndex(i)` of the absent
`TabWidget` makes the tab at index `i` the current one and does nothing for an
index without tab. -/
def setCurrentIndex (i : Int) (w : World) : World :=
  if 0 ≤ i ∧ i < count w then { w with currentIndex := i } else w

/-- TabManager::nextTab, lines 137-141. The operands are `int`s and `%` is the
remainder of C++, which truncates; the tab count is the number of live tab
widgets, so the sum stays inside the range of `int` and is taken in the
integers. -/
def nextTab (w : World) : World :=
  setCurrentIndex (Int.tmod (w.currentIndex + 1) (count w)) w

/-- TabManager::prevTab, lines 143-147, with the same reading of `int` and `%`
as `nextTab`. -/
def prevTab (w : World) : World :=
  setCurrentIndex (Int.tmod (w.currentIndex + count w - 1) (count w)) w

/-- Lines 465-475 of TabManager::setTabModified: the name shown for the editor,
its file name or the name of an untitled document, with `*` appended when the
content or the parameters are modified. -/
def tabModifiedName (env : Env) (w : World) (edt : EditorId) : String :=
  let fname :=
    if (w.editors edt).filepath ≠ "" then env.fileName (w.editors edt).filepath
    else env.tr "Untitled.scad"
  if isModified w edt then fname ++ "*" else fname

/-- Lines 465-471 of TabManager::setTabModified: the path shown as tool tip. -/
def tabModifiedPath (env : Env) (w : World) (edt : EditorId) : String :=
  if (w.editors edt).filepath ≠ "" then env.filePath (w.editors edt).filepath
  else env.tr "Untitled.scad"

/-- TabManager::setTabModified, lines 463-482. -/
def setTabModified (env : Env) (edt : EditorId) (w : World) : World :=
  let fname := tabModifiedName env w edt
  let w1 := if edt = w.editor then { w with windowTitle := fname } else w
  let w2 := setTabText (indexOf w1 edt) (escapeAmp fname) w1
  setTabToolTip (indexOf w2 edt) (tabModifiedPath env w edt) w2

/-- Modelled from the spec: `tabWidget->tabText(x)` of the absent `TabWidget`,
the label of the tab at index `x`, empty when there is no such tab. -/
def tabText (w : World) (x : Nat) : String :=
  ((w.tabs[x]?).map Tab.text).getD ""

/-- TabManager::tabSwitched, lines 84-103; none when there is no tab at index
`x`, where the source dereferences a null pointer. The dock, the undo action
and the close buttons of the tabs are not part of the modelled state. -/
def tabSwitched (x : Nat) (w : World) : Option World :=
  match widget w x with
  | none => none
  | some edt =>
    let w1 := { w with editor := edt, activeEditor := edt }
    let w2 := w1.emit (.par "changedTopLevelEditor" "")
    let w3 := w2.emit (.par "changedTopLevelConsole" "")
    let w4 := w3.emit (.par "parameterTopLevelChanged" "")
    some { w4 with windowTitle := unescapeAmp (tabText w4 x) }

/-! ## Classes of calls -/

/-- A call of `QSaveFile::open`. -/
def Event.isSaveFileOpen : Event → Bool
  | .saveFileOpen _ _ => true
  | _ => false

/-- The file dialog `QFileDialog::getSaveFileName`. -/
def Event.isFileDialog : Event → Bool
  | .getSaveFileName _ _ _ => true
  | _ => false

/-- A confirmation box of `maybeSave` or `shouldClose`. -/
def Event.isConfirmBox : Event → Bool
  | .confirmBox _ _ _ => true
  | _ => false

/-- Any dialog shown to the user. -/
def Event.isDialog : Event → Bool
  | .warning _ _ => true
  | .getSaveFileName _ _ _ => true
  | .overwriteQuestion _ _ _ => true
  | .confirmBox _ _ _ => true
  | _ => false

/-- A call that clears or sets a modified flag. -/
def Event.isSetModified : Event → Bool
  | .setContentModified _ _ => true
  | .setModified _ _ => true
  | _ => false

/-! ## Notions used to state the properties -/

/-- The calls TabManager::setTabName makes for the name `f`. -/
def setTabNameEvents (env : Env) (f : String) : List Event :=
  (if f = "" then [] else [Event.setCurrentDir (env.absoluteDir f)]) ++
    [.par "editorTopLevelChanged" "", .par "changedTopLevelConsole" "",
     .par "parameterTopLevelChanged" ""]

/-- Save the editors of a list one after the other with `save(edt)` and stop
after the first save that fails: the results of the saves made, in order, and
the state reached. -/
def saveEach (env : Env) : List EditorId → World → List Bool × World
  | [], w => ([], w)
  | edt :: rest, w =>
    if (save env edt w).1 then
      (true :: (saveEach env rest (save env edt w).2).1, (saveEach env rest (save env edt w).2).2)
    else ([false], (save env edt w).2)

/-- The registry holds exactly the editors shown as tabs. -/
def RegistryMatchesTabs (w : World) : Prop :=
  ∀ e, e ∈ w.editorList ↔ e ∈ tabEditors w

/-- Every editor is shown in one tab only and was allocated before `nextId`:
what pointer identity of live widgets gives in the source. -/
def TabsDistinct (w : World) : Prop :=
  (tabEditors w).Nodup ∧ ∀ e ∈ tabEditors w, e < w.nextId

/-- What the save routines leave alone between the state `w` and the state
`w'` they reach: the registry, the editors shown as tabs, the allocator; they
only add calls to the history, none of them a confirmation box, and they raise
no modified flag. -/
structure Frame (w w' : World) : Prop where
  editorList : w'.editorList = w.editorList
  tabEditors : tabEditors w' = tabEditors w
  nextId : w'.nextId = w.nextId
  trace : ∃ evs, w'.trace = w.trace ++ evs ∧ evs.countP Event.isConfirmBox = 0
  lowered : ∀ e, isModified w' e = true → isModified w e = true

/-! ## A concrete window -/

/-- The text after the last slash of a path. -/
def fileNameOf (s : String) : String :=
  ⟨(s.data.reverse.takeWhile (fun c => c != '/')).reverse⟩

/-- The text after the last dot of the file name of a path, empty when it has no dot. -/
def suffixOf (s : String) : String :=
  match (fileNameOf s).data.reverse.span (fun c => c != '.') with
  | (suf, _ :: _) => ⟨suf.reverse⟩
  | (_, []) => ""

/-- A collaborator whose save file opens, writes and commits as the three
flags say, whose file dialog returns `chosen` and whose message boxes are all
closed with `answer`. -/
def sampleEnv (opens statusOk commits : Bool) (chosen : String) (answer : StandardButton) : Env where
  tr := fun s => s
  saveFileOpen := fun _ _ => opens
  streamStatusOk := fun _ _ _ => statusOk
  commit := fun _ _ => commits
  parameterSaveFile := fun _ _ fs => fs
  parameterReadFile := fun e _ _ => e
  setPlainText := fun e s => { e with text := s, contentModified := false }
  readFreed := fun _ _ => "?"
  getSaveFileName := fun _ _ _ => chosen
  messageBox := fun _ _ => answer
  readFileOpen := fun _ _ => true
  parse := fun _ => ParseOutcome.ok
  suffix := suffixOf
  fileName := fileNameOf
  filePath := fun s => s
  absoluteFilePath := fun s => s
  absoluteDir := fun s => s
  toLower := fun s => s
  arg := fun cmd _ => cmd
  newEditor :=
    { filepath := "", text := "", contentModified := false, paramModified := false,
      contentsRendered := false, paramEnabled := true }
  currentAfterRemove := fun cur _ _ => cur - 1

/-- A window with three tabs: editor 0 shows the modified file `/d/a.scad`,
editor 1 is an unmodified `/d/b.scad`, editor 2 is a modified document that
has no file yet. -/
def sampleWorld : World where
  editors := fun i =>
    if i = 0 then
      { filepath := "/d/a.scad", text := "cube(1);", contentModified := true,
        paramModified := false, contentsRendered := true, paramEnabled := true }
    else if i = 1 then
      { filepath := "/d/b.scad", text := "sphere(2);", contentModified := false,
        paramModified := false, contentsRendered := true, paramEnabled := true }
    else
      { filepath := "", text := "cylinder(3);", contentModified := false,
        paramModified := true, contentsRendered := false, paramEnabled := true }
  nextId := 3
  editorList := [1, 0, 2]
  tabs := [⟨0, "a.scad*", "/d/a.scad"⟩, ⟨1, "b.scad", "/d/b.scad"⟩, ⟨2, "Untitled.scad*", "Untitled.scad"⟩]
  currentIndex := 0
  editor := 0
  activeEditor := 0
  windowTitle := "a.scad*"
  knownFileExtensions := fun s => if s = "scad" then some "" else none
  fs := fun p =>
    if p = "/d/a.scad" then some "cube(0);"
    else if p = "/d/b.scad" then some "sphere(2);"
    else if p = "/d/c.scad" then some "old"
    else none
  trace := []

/-- The sample window with the file of editor 0 renamed to `/d/a&b.scad`. -/
def sampleWorldAmp : World :=
  sampleWorld.setEditor 0 { sampleWorld.editors 0 with filepath := "/d/a&b.scad" }

/-- The four ways `savePath` can end: the open failed, the stream reported an
error, the commit failed, or the file was committed. A failure leaves
everything but the history as it was. -/
theorem savePath_cases (env : Env) (edt : EditorId) (path : String) (w : World) :
    savePath env edt path w = (false, { w with trace := w.trace ++
        [.par "setCurrentOutput" "", .saveFileOpen path false, .readFreed path,
         .log (env.tr "Failed to open file for writing")
           (env.readFreed (w.trace ++ [.par "setCurrentOutput" "", .saveFileOpen path false,
             .readFreed path]) path),
         .warning (env.tr "Failed to open file for writing") path] }) ∨
    savePath env edt path w = (false, { w with trace := w.trace ++
        [.par "setCurrentOutput" "", .saveFileOpen path true,
         .streamWrite path (w.editors edt).text false, .cancelWriting path, .readFreed path,
         .log (env.tr "Error saving design")
           (env.readFreed (w.trace ++ [.par "setCurrentOutput" "", .saveFileOpen path true,
             .streamWrite path (w.editors edt).text false, .cancelWriting path,
             .readFreed path]) path),
         .warning (env.tr "Error saving design") path] }) ∨
    savePath env edt path w = (false, { w with trace := w.trace ++
        [.par "setCurrentOutput" "", .saveFileOpen path true,
         .streamWrite path (w.editors edt).text true, .commit path false, .readFreed path,
         .log (env.tr "Error saving design")
           (env.readFreed (w.trace ++ [.par "setCurrentOutput" "", .saveFileOpen path true,
             .streamWrite path (w.editors edt).text true, .commit path false,
             .readFreed path]) path),
         .warning (env.tr "Error saving design") path] }) ∨
    savePath env edt path w = (true, { w with
        editors := fun i =>
          if i = edt then { w.editors edt with contentModified := false, paramModified := false }
          else w.editors i
        fs := env.parameterSaveFile (w.editors edt) path
          (fun p => if p = path then some (w.editors edt).text else w.fs p)
        trace := w.trace ++
        [.par "setCurrentOutput" "", .saveFileOpen path true,
         .streamWrite path (w.editors edt).text true, .commit path true,
         .log "Saved design '%1$s'." path, .parameterSaveFile edt path,
         .setContentModified edt false, .setModified edt false,
         .par "updateRecentFiles" path] }) := by
  simp only [savePath, World.emit, World.setEditor, saveError, commit, setContentModified,
    setModified]
  cases h1 : env.saveFileOpen (w.trace ++ [Event.par "setCurrentOutput" ""]) path
  · simp
  · cases h2 : env.streamStatusOk
      (w.trace ++ [Event.par "setCurrentOutput" ""] ++ [Event.saveFileOpen path true]) path
      (w.editors edt).text
    · simp
    · cases h3 : env.commit
        (w.trace ++ [Event.par "setCurrentOutput" ""] ++ [Event.saveFileOpen path true] ++
          [Event.streamWrite path (w.editors edt).text true]) path
      · simp
      · right; right; right
        simp
        funext i
        by_cases hi : i = edt <;> simp [hi]

theorem Frame.refl (w : World) : Frame w w :=
  ⟨rfl, rfl, rfl, ⟨[], by simp⟩, fun _ h => h⟩

theorem Frame.trans {a b c : World} (h1 : Frame a b) (h2 : Frame b c) : Frame a c := by
  obtain ⟨e1, he1, hc1⟩ := h1.trace
  obtain ⟨e2, he2, hc2⟩ := h2.trace
  refine ⟨h2.editorList.trans h1.editorList, h2.tabEditors.trans h1.tabEditors,
    h2.nextId.trans h1.nextId, ⟨e1 ++ e2, ?_, ?_⟩, fun e h => h1.lowered e (h2.lowered e h)⟩
  · rw [he2, he1, List.append_assoc]
  · simp [List.countP_append, hc1, hc2]

theorem tabEditors_set_text (l : List Tab) (i : Nat) (t : Tab) (s : String)
    (h : l[i]? = some t) :
    (l.set i { t with text := s }).map Tab.widget = l.map Tab.widget := by
  induction l generalizing i with
  | nil => simp
  | cons a l ih =>
    cases i with
    | zero => simp at h; simp [h]
    | succ i => simp at h; simp [ih i h]

theorem tabEditors_set_toolTip (l : List Tab) (i : Nat) (t : Tab) (s : String)
    (h : l[i]? = some t) :
    (l.set i { t with toolTip := s }).map Tab.widget = l.map Tab.widget := by
  induction l generalizing i with
  | nil => simp
  | cons a l ih =>
    cases i with
    | zero => simp at h; simp [h]
    | succ i => simp at h; simp [ih i h]

theorem setTabText_eq (idx : Option Nat) (s : String) (w : World) :
    setTabText idx s w = { w with tabs := (setTabText idx s w).tabs } ∧
    (setTabText idx s w).tabs.map Tab.widget = w.tabs.map Tab.widget := by
  unfold setTabText
  cases idx with
  | none => simp
  | some i =>
    cases h : w.tabs[i]? with
    | none => simp [h]
    | some t => simp [h, tabEditors, tabEditors_set_text _ _ _ _ h]

theorem setTabToolTip_eq (idx : Option Nat) (s : String) (w : World) :
    setTabToolTip idx s w = { w with tabs := (setTabToolTip idx s w).tabs } ∧
    (setTabToolTip idx s w).tabs.map Tab.widget = w.tabs.map Tab.widget := by
  unfold setTabToolTip
  cases idx with
  | none => simp
  | some i =>
    cases h : w.tabs[i]? with
    | none => simp [h]
    | some t => simp [h, tabEditors, tabEditors_set_toolTip _ _ _ _ h]

theorem setTabText_fields (idx : Option Nat) (s : String) (w : World) :
    (setTabText idx s w).editors = w.editors ∧
    (setTabText idx s w).nextId = w.nextId ∧
    (setTabText idx s w).editorList = w.editorList ∧
    (setTabText idx s w).currentIndex = w.currentIndex ∧
    (setTabText idx s w).editor = w.editor ∧
    (setTabText idx s w).activeEditor = w.activeEditor ∧
    (setTabText idx s w).windowTitle = w.windowTitle ∧
    (setTabText idx s w).knownFileExtensions = w.knownFileExtensions ∧
    (setTabText idx s w).fs = w.fs ∧
    (setTabText idx s w).trace = w.trace := by
  rw [(setTabText_eq idx s w).1]
  simp

theorem setTabToolTip_fields (idx : Option Nat) (s : String) (w : World) :
    (setTabToolTip idx s w).editors = w.editors ∧
    (setTabToolTip idx s w).nextId = w.nextId ∧
    (setTabToolTip idx s w).editorList = w.editorList ∧
    (setTabToolTip idx s w).currentIndex = w.currentIndex ∧
    (setTabToolTip idx s w).editor = w.editor ∧
    (setTabToolTip idx s w).activeEditor = w.activeEditor ∧
    (setTabToolTip idx s w).windowTitle = w.windowTitle ∧
    (setTabToolTip idx s w).knownFileExtensions = w.knownFileExtensions ∧
    (setTabToolTip idx s w).fs = w.fs ∧
    (setTabToolTip idx s w).trace = w.trace := by
  rw [(setTabToolTip_eq idx s w).1]
  simp

theorem setTabName_fields (env : Env) (f : String) (edt : Option EditorId) (w : World) :
    (setTabName env f edt w).editorList = w.editorList ∧
    (setTabName env f edt w).nextId = w.nextId ∧
    (setTabName env f edt w).editor = w.editor ∧
    (setTabName env f edt w).fs = w.fs ∧
    (setTabName env f edt w).knownFileExtensions = w.knownFileExtensions ∧
    tabEditors (setTabName env f edt w) = tabEditors w ∧
    (setTabName env f edt w).editors = (fun i =>
      if i = edt.getD w.editor then
        { w.editors (edt.getD w.editor) with
          filepath := if f = "" then "" else env.absoluteFilePath f }
      else w.editors i) ∧
    (setTabName env f edt w).trace = w.trace ++ setTabNameEvents env f := by
  unfold setTabName setTabNameEvents
  by_cases hf : f = ""
  · simp [hf, World.emit, World.setEditor, setTabText_fields, setTabToolTip_fields, tabEditors,
      (setTabText_eq _ _ _).2, (setTabToolTip_eq _ _ _).2]
  · simp [hf, World.emit, World.setEditor, setTabText_fields, setTabToolTip_fields, tabEditors,
      (setTabText_eq _ _ _).2, (setTabToolTip_eq _ _ _).2]

theorem indexOf_some (w : World) (e : EditorId) (i : Nat) (h : indexOf w e = some i) :
    ∃ t, w.tabs[i]? = some t ∧ t.widget = e := by
  unfold indexOf List.indexOf? at h
  rw [List.findIdx?_eq_some_iff_getElem] at h
  obtain ⟨hlt, hp, -⟩ := h
  simp only [tabEditors, List.length_map] at hlt
  refine ⟨w.tabs[i], by simp [hlt], ?_⟩
  simpa [tabEditors] using hp

theorem indexOf_congr (w w' : World) (e : EditorId) (h : w'.tabs.map Tab.widget = w.tabs.map Tab.widget) :
    indexOf w' e = indexOf w e := by
  unfold indexOf tabEditors
  rw [h]

theorem setTabName_label (env : Env) (f : String) (e : EditorId) (w : World) (i : Nat)
    (hf : f ≠ "") (hi : indexOf w e = some i) :
    ((setTabName env f (some e) w).tabs[i]?).map Tab.text = some (escapeAmp (env.fileName f)) := by
  obtain ⟨t, ht, -⟩ := indexOf_some w e i hi
  have h1 : indexOf (w.setEditor e { w.editors e with filepath := env.absoluteFilePath f }) e
      = some i := by
    rw [← hi]; exact indexOf_congr _ _ _ rfl
  have h2 : ∀ s w', (w'.tabs.map Tab.widget = w.tabs.map Tab.widget) →
      indexOf (setTabText (some i) s w') e = some i := by
    intro s w' hw'
    rw [← hi]
    exact indexOf_congr _ _ _ (((setTabText_eq _ _ _).2).trans hw')
  simp only [setTabName, hf, Option.getD_some, if_false, h1]
  rw [h2 _ (w.setEditor e _) rfl]
  have hlt : i < w.tabs.length := by
    by_contra hc
    rw [List.getElem?_eq_none (Nat.le_of_not_lt hc)] at ht
    cases ht
  simp [World.emit, World.setEditor, setTabText, setTabToolTip, ht, List.getElem?_set, hlt]
  

/-- C1: `save(edt, path)` returns true exactly when the save file was opened,
the stream status was Ok after the flush and `commit()` succeeded; when it
returns true it has called both flag setters with `false` and both modified
flags of the editor are clear; when it returns false it has called no flag
setter and both flags have the value they had before the call. -/
theorem savePath_clears_modified_iff_committed (env : Env) (edt : EditorId) (path : String)
    (w : World) :
    ((savePath env edt path w).1 = true ↔
      (Event.saveFileOpen path true ∈ newEvents w (savePath env edt path w).2 ∧
       Event.streamWrite path (w.editors edt).text true ∈
         newEvents w (savePath env edt path w).2 ∧
       Event.commit path true ∈ newEvents w (savePath env edt path w).2)) ∧
    ((savePath env edt path w).1 = true →
      ((savePath env edt path w).2.editors edt).contentModified = false ∧
      ((savePath env edt path w).2.editors edt).paramModified = false ∧
      (newEvents w (savePath env edt path w).2).filter Event.isSetModified =
        [.setContentModified edt false, .setModified edt false]) ∧
    ((savePath env edt path w).1 = false →
      ((savePath env edt path w).2.editors edt).contentModified =
        (w.editors edt).contentModified ∧
      ((savePath env edt path w).2.editors edt).paramModified = (w.editors edt).paramModified ∧
      (newEvents w (savePath env edt path w).2).filter Event.isSetModified = []) := by
  rcases savePath_cases env edt path w with h | h | h | h <;>
    simp [h, newEvents, Event.isSetModified]

/-- A failed commit on the sample window leaves the flags of editor 0 as they
were, a successful one clears them. -/
theorem savePath_clears_modified_iff_committed_witness :
    (savePath (sampleEnv true true false "" .Cancel) 0 "/d/a.scad" sampleWorld).1 = false ∧
    ((savePath (sampleEnv true true false "" .Cancel) 0 "/d/a.scad" sampleWorld).2.editors
      0).contentModified = true ∧
    (savePath (sampleEnv true true true "" .Cancel) 0 "/d/a.scad" sampleWorld).1 = true ∧
    ((savePath (sampleEnv true true true "" .Cancel) 0 "/d/a.scad" sampleWorld).2.editors
      0).contentModified = false :=
  ⟨by decide,
   ((savePath_clears_modified_iff_committed (sampleEnv true true false "" .Cancel) 0
      "/d/a.scad" sampleWorld).2.2 (by decide)).1,
   by decide,
   ((savePath_clears_modified_iff_committed (sampleEnv true true true "" .Cancel) 0
      "/d/a.scad" sampleWorld).2.1 (by decide)).1⟩

/-- C3: whenever `save(edt, path)` returns false, every file on disk, the one
at `path` included, has the content it had before the call. -/
theorem savePath_failure_keeps_files (env : Env) (edt : EditorId) (path : String) (w : World)
    (h : (savePath env edt path w).1 = false) :
    (savePath env edt path w).2.fs = w.fs ∧
    (savePath env edt path w).2.fs path = w.fs path := by
  rcases savePath_cases env edt path w with h' | h' | h' | h' <;> simp_all

/-- A failed commit on the sample window leaves `/d/a.scad` with its old content. -/
theorem savePath_failure_keeps_files_witness :
    (savePath (sampleEnv true true false "" .Cancel) 0 "/d/a.scad" sampleWorld).1 = false ∧
    (savePath (sampleEnv true true false "" .Cancel) 0 "/d/a.scad" sampleWorld).2.fs
      "/d/a.scad" = some "cube(0);" :=
  ⟨by decide,
   (savePath_failure_keeps_files (sampleEnv true true false "" .Cancel) 0 "/d/a.scad"
      sampleWorld (by decide)).2.trans (by decide)⟩

theorem savePath_frame (env : Env) (edt : EditorId) (path : String) (w : World) :
    Frame w (savePath env edt path w).2 := by
  rcases savePath_cases env edt path w with h | h | h | h <;> rw [h]
  · exact ⟨rfl, rfl, rfl, ⟨_, rfl, by simp [Event.isConfirmBox]⟩, fun _ h => h⟩
  · exact ⟨rfl, rfl, rfl, ⟨_, rfl, by simp [Event.isConfirmBox]⟩, fun _ h => h⟩
  · exact ⟨rfl, rfl, rfl, ⟨_, rfl, by simp [Event.isConfirmBox]⟩, fun _ h => h⟩
  · refine ⟨rfl, rfl, rfl, ⟨_, rfl, by simp [Event.isConfirmBox]⟩, fun e he => ?_⟩
    by_cases hi : e = edt
    · simp [isModified, hi] at he
    · simpa [isModified, hi] using he

theorem savePath_others (env : Env) (edt : EditorId) (path : String) (w : World)
    (e : EditorId) (he : e ≠ edt) :
    (savePath env edt path w).2.editors e = w.editors e := by
  rcases savePath_cases env edt path w with h | h | h | h <;> simp [h, he]

theorem savePath_failure (env : Env) (edt : EditorId) (path : String) (w : World)
    (hf : (savePath env edt path w).1 = false) :
    (savePath env edt path w).2.editors = w.editors ∧
    (savePath env edt path w).2.tabs = w.tabs ∧
    (savePath env edt path w).2.fs = w.fs ∧
    (savePath env edt path w).2.windowTitle = w.windowTitle := by
  rcases savePath_cases env edt path w with h | h | h | h <;> simp_all

theorem savePath_success (env : Env) (edt : EditorId) (path : String) (w : World)
    (hs : (savePath env edt path w).1 = true) :
    isModified (savePath env edt path w).2 edt = false ∧
    (savePath env edt path w).2.tabs = w.tabs ∧
    ((savePath env edt path w).2.editors edt).filepath = (w.editors edt).filepath := by
  rcases savePath_cases env edt path w with h | h | h | h <;> simp_all [isModified]

theorem savePath_events (env : Env) (edt : EditorId) (path : String) (w : World) :
    ∃ evs, (savePath env edt path w).2.trace = w.trace ++ evs ∧
      evs.countP Event.isFileDialog = 0 ∧
      evs.countP Event.isSaveFileOpen = 1 ∧
      (Event.commit path true ∈ evs ↔ (savePath env edt path w).1 = true) ∧
      (∀ p, Event.commit p true ∈ evs → p = path) := by
  rcases savePath_cases env edt path w with h | h | h | h <;> rw [h] <;>
    exact ⟨_, rfl, by simp [Event.isFileDialog, Event.isSaveFileOpen]⟩

theorem setTabName_frame (env : Env) (f : String) (edt : Option EditorId) (w : World) :
    Frame w (setTabName env f edt w) := by
  obtain ⟨h1, h2, -, -, -, h6, h7, h8⟩ := setTabName_fields env f edt w
  refine ⟨h1, h6, h2, ⟨_, h8, ?_⟩, fun e he => ?_⟩
  · by_cases hf : f = "" <;> simp [setTabNameEvents, hf, Event.isConfirmBox]
  · unfold isModified at he ⊢
    rw [h7] at he
    by_cases hi : e = edt.getD w.editor
    · simpa [hi] using he
    · simpa [hi] using he

theorem saveAsWrite_frame (env : Env) (edt : EditorId) (f : String) (w : World) :
    Frame w (saveAsWrite env edt f w).2 := by
  unfold saveAsWrite
  by_cases h : (savePath env edt f w).1 = true
  · simp only [h, if_true]
    exact (savePath_frame env edt f w).trans (setTabName_frame env f (some edt) _)
  · simp only [h]
    exact savePath_frame env edt f w

theorem saveAsWrite_others (env : Env) (edt : EditorId) (f : String) (w : World)
    (e : EditorId) (he : e ≠ edt) :
    (saveAsWrite env edt f w).2.editors e = w.editors e := by
  unfold saveAsWrite
  by_cases h : (savePath env edt f w).1 = true
  · simp only [h, if_true]
    rw [(setTabName_fields env f (some edt) _).2.2.2.2.2.2.1]
    simp [he, savePath_others env edt f w e he]
  · simp only [h]
    exact savePath_others env edt f w e he

theorem saveAsWrite_result (env : Env) (edt : EditorId) (f : String) (w : World) :
    (saveAsWrite env edt f w).1 = (savePath env edt f w).1 := by
  unfold saveAsWrite
  by_cases h : (savePath env edt f w).1 = true
  · simp [h]
  · simp only [h]; simp

theorem saveAsWrite_failure (env : Env) (edt : EditorId) (f : String) (w : World)
    (hf : (saveAsWrite env edt f w).1 = false) :
    (saveAsWrite env edt f w).2.editors = w.editors ∧
    (saveAsWrite env edt f w).2.tabs = w.tabs ∧
    (saveAsWrite env edt f w).2.fs = w.fs ∧
    (saveAsWrite env edt f w).2.windowTitle = w.windowTitle := by
  have h := hf
  rw [saveAsWrite_result] at h
  have h2 : (saveAsWrite env edt f w).2 = (savePath env edt f w).2 := by
    unfold saveAsWrite; simp [h]
  rw [h2]
  exact savePath_failure env edt f w h

theorem saveAsWrite_success (env : Env) (edt : EditorId) (f : String) (w : World)
    (hs : (saveAsWrite env edt f w).1 = true) :
    isModified (saveAsWrite env edt f w).2 edt = false ∧
    ((saveAsWrite env edt f w).2.editors edt).filepath =
      (if f = "" then "" else env.absoluteFilePath f) ∧
    (f ≠ "" → ∀ i, indexOf w edt = some i →
      ((saveAsWrite env edt f w).2.tabs[i]?).map Tab.text = some (escapeAmp (env.fileName f))) := by
  have h := hs
  rw [saveAsWrite_result] at h
  have h2 : (saveAsWrite env edt f w).2 = setTabName env f (some edt) (savePath env edt f w).2 := by
    unfold saveAsWrite; simp [h]
  rw [h2]
  obtain ⟨hm, ht, -⟩ := savePath_success env edt f w h
  refine ⟨?_, ?_, ?_⟩
  · unfold isModified at hm ⊢
    rw [(setTabName_fields env f (some edt) _).2.2.2.2.2.2.1]
    simpa using hm
  · rw [(setTabName_fields env f (some edt) _).2.2.2.2.2.2.1]
    simp
  · intro hf i hi
    apply setTabName_label env f edt _ i hf
    rw [← hi]
    exact indexOf_congr _ _ _ (by rw [ht])

theorem saveAsWrite_events (env : Env) (edt : EditorId) (f : String) (w : World) :
    ∃ evs, (saveAsWrite env edt f w).2.trace = w.trace ++ evs ∧
      evs.countP Event.isFileDialog = 0 ∧
      evs.countP Event.isSaveFileOpen = 1 ∧
      (Event.commit f true ∈ evs ↔ (saveAsWrite env edt f w).1 = true) ∧
      (∀ p, Event.commit p true ∈ evs → p = f) := by
  obtain ⟨evs, h1, h2, h3, h4, h5⟩ := savePath_events env edt f w
  rw [saveAsWrite_result]
  unfold saveAsWrite
  by_cases h : (savePath env edt f w).1 = true
  · simp only [h, if_true]
    refine ⟨evs ++ setTabNameEvents env f, ?_, ?_, ?_, ?_, ?_⟩
    · rw [(setTabName_fields env f (some edt) _).2.2.2.2.2.2.2, h1, List.append_assoc]
    · by_cases hf : f = "" <;>
        simp [setTabNameEvents, hf, List.countP_append, h2, Event.isFileDialog]
    · by_cases hf : f = "" <;>
        simp [setTabNameEvents, hf, List.countP_append, h3, Event.isSaveFileOpen]
    · have h6 : Event.commit f true ∈ evs := h4.2 h
      simp [h6]
    · intro p hp
      apply h5 p
      by_cases hf : f = "" <;> simpa [setTabNameEvents, hf] using hp
  · simp only [h]
    exact ⟨evs, h1, h2, h3, by simpa [h] using h4, h5⟩

theorem append_scad_ne_empty (s : String) : s ++ ".scad" ≠ "" := by
  intro h
  have h2 := congrArg String.length h
  rw [String.length_append] at h2
  have h3 : (".scad" : String).length = 5 := by decide
  have h4 : ("" : String).length = 0 := by decide
  omega

theorem saveAsTarget_ne_empty (env : Env) (edt : EditorId) (w : World)
    (h : saveAsChosen env edt w ≠ "") : saveAsTarget env edt w ≠ "" := by
  unfold saveAsTarget
  split
  · exact append_scad_ne_empty _
  · exact h

/-- The three ways `saveAs` can go: the file dialog is cancelled, the overwrite
question is not answered with Yes, or the chosen file is written from a state
that differs from the first only by the dialogs shown. -/
theorem saveAs_cases (env : Env) (edt : EditorId) (w : World) :
    (saveAsChosen env edt w = "" ∧
      saveAs env edt w = (false, { w with trace := w.trace ++ [saveAsDialog env edt w] })) ∨
    (saveAsChosen env edt w ≠ "" ∧ env.suffix (saveAsChosen env edt w) = "" ∧
      (w.fs (saveAsChosen env edt w ++ ".scad")).isSome = true ∧
      saveAsAnswer env edt w ≠ StandardButton.Yes ∧
      saveAs env edt w = (false, { w with
        trace := w.trace ++ [saveAsDialog env edt w, saveAsQuestion env edt w] })) ∨
    (saveAsChosen env edt w ≠ "" ∧
      ∃ pre, (pre = [saveAsDialog env edt w] ∨
          pre = [saveAsDialog env edt w, saveAsQuestion env edt w]) ∧
        saveAs env edt w =
          saveAsWrite env edt (saveAsTarget env edt w) { w with trace := w.trace ++ pre }) := by
  unfold saveAs saveAsTarget
  by_cases h1 : saveAsChosen env edt w = ""
  · left; simp [h1, World.emit]
  · right
    by_cases h2 : env.suffix (saveAsChosen env edt w) = ""
    · by_cases h3 : (w.fs (saveAsChosen env edt w ++ ".scad")).isSome = true
      · by_cases h4 : saveAsAnswer env edt w = StandardButton.Yes
        · right
          refine ⟨h1, [saveAsDialog env edt w, saveAsQuestion env edt w], Or.inr rfl, ?_⟩
          simp [h1, h2, h3, h4, World.emit]
        · left
          refine ⟨h1, h2, h3, h4, ?_⟩
          simp [h1, h2, h3, h4, World.emit]
      · right
        refine ⟨h1, [saveAsDialog env edt w], Or.inl rfl, ?_⟩
        simp [h1, h2, h3, World.emit]
    · right
      refine ⟨h1, [saveAsDialog env edt w], Or.inl rfl, ?_⟩
      simp [h1, h2, World.emit]

theorem pre_countP (env : Env) (edt : EditorId) (w : World) (pre : List Event)
    (h : pre = [saveAsDialog env edt w] ∨
      pre = [saveAsDialog env edt w, saveAsQuestion env edt w]) :
    pre.countP Event.isConfirmBox = 0 ∧ pre.countP Event.isFileDialog = 1 ∧
    pre.countP Event.isSaveFileOpen = 0 ∧ ∀ p b, Event.commit p b ∉ pre := by
  rcases h with h | h <;> subst h <;>
    simp [saveAsDialog, saveAsQuestion, Event.isConfirmBox, Event.isFileDialog,
      Event.isSaveFileOpen]

theorem frame_of_trace (w : World) (pre : List Event) (h : pre.countP Event.isConfirmBox = 0) :
    Frame w { w with trace := w.trace ++ pre } :=
  ⟨rfl, rfl, rfl, ⟨pre, rfl, h⟩, fun _ he => he⟩

theorem saveAs_frame (env : Env) (edt : EditorId) (w : World) :
    Frame w (saveAs env edt w).2 := by
  rcases saveAs_cases env edt w with ⟨-, h⟩ | ⟨-, -, -, -, h⟩ | ⟨-, pre, hpre, h⟩
  · rw [h]; exact frame_of_trace w _ (by simp [saveAsDialog, Event.isConfirmBox])
  · rw [h]
    exact frame_of_trace w _ (by simp [saveAsDialog, saveAsQuestion, Event.isConfirmBox])
  · rw [h]
    exact (frame_of_trace w pre (pre_countP env edt w pre hpre).1).trans
      (saveAsWrite_frame env edt _ _)

theorem saveAs_others (env : Env) (edt : EditorId) (w : World) (e : EditorId) (he : e ≠ edt) :
    (saveAs env edt w).2.editors e = w.editors e := by
  rcases saveAs_cases env edt w with ⟨-, h⟩ | ⟨-, -, -, -, h⟩ | ⟨-, pre, -, h⟩
  · rw [h]
  · rw [h]
  · rw [h, saveAsWrite_others env edt _ _ e he]

theorem saveAs_failure (env : Env) (edt : EditorId) (w : World)
    (hf : (saveAs env edt w).1 = false) :
    (saveAs env edt w).2.editors = w.editors ∧
    (saveAs env edt w).2.tabs = w.tabs ∧
    (saveAs env edt w).2.fs = w.fs ∧
    (saveAs env edt w).2.windowTitle = w.windowTitle := by
  rcases saveAs_cases env edt w with ⟨-, h⟩ | ⟨-, -, -, -, h⟩ | ⟨-, pre, -, h⟩
  · rw [h]; simp
  · rw [h]; simp
  · rw [h] at hf ⊢
    exact saveAsWrite_failure env edt _ _ hf

theorem saveAs_success (env : Env) (edt : EditorId) (w : World)
    (hs : (saveAs env edt w).1 = true) :
    isModified (saveAs env edt w).2 edt = false ∧
    ((saveAs env edt w).2.editors edt).filepath =
      env.absoluteFilePath (saveAsTarget env edt w) ∧
    (∀ i, indexOf w edt = some i →
      ((saveAs env edt w).2.tabs[i]?).map Tab.text =
        some (escapeAmp (env.fileName (saveAsTarget env edt w)))) := by
  rcases saveAs_cases env edt w with ⟨-, h⟩ | ⟨-, -, -, -, h⟩ | ⟨hne, pre, -, h⟩
  · rw [h] at hs; cases hs
  · rw [h] at hs; cases hs
  · rw [h] at hs ⊢
    have ht := saveAsTarget_ne_empty env edt w hne
    obtain ⟨h1, h2, h3⟩ := saveAsWrite_success env edt _ _ hs
    refine ⟨h1, by simpa [ht] using h2, fun i hi => h3 ht i ?_⟩
    rw [← hi]
    exact indexOf_congr _ _ _ rfl

theorem saveAs_events (env : Env) (edt : EditorId) (w : World) :
    ∃ evs, (saveAs env edt w).2.trace = w.trace ++ evs ∧
      evs.countP Event.isFileDialog = 1 ∧
      evs.countP Event.isSaveFileOpen ≤ 1 ∧
      (Event.commit (saveAsTarget env edt w) true ∈ evs ↔ (saveAs env edt w).1 = true) ∧
      (∀ p, Event.commit p true ∈ evs → p = saveAsTarget env edt w) := by
  rcases saveAs_cases env edt w with ⟨-, h⟩ | ⟨-, -, -, -, h⟩ | ⟨-, pre, hpre, h⟩
  · rw [h]
    exact ⟨_, rfl, by simp [saveAsDialog, Event.isFileDialog, Event.isSaveFileOpen]⟩
  · rw [h]
    exact ⟨_, rfl, by
      simp [saveAsDialog, saveAsQuestion, Event.isFileDialog, Event.isSaveFileOpen]⟩
  · rw [h]
    obtain ⟨evs, h1, h2, h3, h4, h5⟩ := saveAsWrite_events env edt (saveAsTarget env edt w)
      { w with trace := w.trace ++ pre }
    obtain ⟨-, p2, p3, p4⟩ := pre_countP env edt w pre hpre
    refine ⟨pre ++ evs, by rw [h1, List.append_assoc], ?_, ?_, ?_, ?_⟩
    · simp [List.countP_append, h2, p2]
    · simp [List.countP_append, h3, p3]
    · rw [← h4]
      simp [p4]
    · intro p hp
      apply h5 p
      simpa [p4] using hp

theorem save_frame (env : Env) (edt : EditorId) (w : World) : Frame w (save env edt w).2 := by
  unfold save
  split
  · exact saveAs_frame env edt w
  · exact savePath_frame env edt _ w

theorem save_others (env : Env) (edt : EditorId) (w : World) (e : EditorId) (he : e ≠ edt) :
    (save env edt w).2.editors e = w.editors e := by
  unfold save
  split
  · exact saveAs_others env edt w e he
  · exact savePath_others env edt _ w e he

theorem save_failure (env : Env) (edt : EditorId) (w : World)
    (hf : (save env edt w).1 = false) :
    (save env edt w).2.editors = w.editors ∧
    (save env edt w).2.tabs = w.tabs ∧
    (save env edt w).2.fs = w.fs ∧
    (save env edt w).2.windowTitle = w.windowTitle := by
  unfold save at hf ⊢
  split at hf
  · simp only [*, if_true]; exact saveAs_failure env edt w hf
  · simp only [*, if_false]; exact savePath_failure env edt _ w hf

theorem save_success (env : Env) (edt : EditorId) (w : World)
    (hs : (save env edt w).1 = true) : isModified (save env edt w).2 edt = false := by
  unfold save at hs ⊢
  split at hs
  · simp only [*, if_true]; exact (saveAs_success env edt w hs).1
  · simp only [*, if_false]; exact (savePath_success env edt _ w hs).1

theorem newEvents_of_trace (w w' : World) (evs : List Event) (h : w'.trace = w.trace ++ evs) :
    newEvents w w' = evs := by
  simp [newEvents, h]

/-- C5: `save(edt)` with a non-empty file path is `save(edt, edt->filepath)`: it
shows no file dialog and opens the save file once, whatever the modified flags
are; with an empty file path it is `saveAs(edt)`, which shows the file dialog
once. -/
theorem save_resolves_path (env : Env) (edt : EditorId) (w : World) :
    ((w.editors edt).filepath ≠ "" →
      save env edt w = savePath env edt (w.editors edt).filepath w ∧
      (newEvents w (save env edt w).2).countP Event.isFileDialog = 0 ∧
      (newEvents w (save env edt w).2).countP Event.isSaveFileOpen = 1) ∧
    ((w.editors edt).filepath = "" →
      save env edt w = saveAs env edt w ∧
      (newEvents w (save env edt w).2).countP Event.isFileDialog = 1) := by
  constructor
  · intro h
    have hs : save env edt w = savePath env edt (w.editors edt).filepath w := by
      unfold save; simp [h]
    obtain ⟨evs, h1, h2, h3, -⟩ := savePath_events env edt (w.editors edt).filepath w
    rw [hs, newEvents_of_trace _ _ evs h1]
    exact ⟨rfl, h2, h3⟩
  · intro h
    have hs : save env edt w = saveAs env edt w := by
      unfold save; simp [h]
    obtain ⟨evs, h1, h2, -⟩ := saveAs_events env edt w
    rw [hs, newEvents_of_trace _ _ evs h1]
    exact ⟨rfl, h2⟩

/-- On the sample window the unmodified editor 1 is written to its own file
without a file dialog, and editor 2, which has no file, gets the file dialog. -/
theorem save_resolves_path_witness :
    isModified sampleWorld 1 = false ∧
    (newEvents sampleWorld
      (save (sampleEnv true true true "/d/n.scad" .Yes) 1 sampleWorld).2).countP
        Event.isSaveFileOpen = 1 ∧
    (newEvents sampleWorld
      (save (sampleEnv true true true "/d/n.scad" .Yes) 2 sampleWorld).2).countP
        Event.isFileDialog = 1 :=
  ⟨by decide,
   ((save_resolves_path (sampleEnv true true true "/d/n.scad" .Yes) 1 sampleWorld).1
      (by decide)).2.2,
   ((save_resolves_path (sampleEnv true true true "/d/n.scad" .Yes) 2 sampleWorld).2
      (by decide)).2⟩

/-- C6, as amended: for a tab index `x` holding the editor `edt`, `maybeSave(x)`
returns true and does nothing when neither the content nor the parameters are
modified; otherwise its first call is its confirmation box, which it shows
once. On Cancel it returns false and on Discard true, in both cases without
any further call, so that box is the one dialog shown. On Save it returns the
result of `save(edt)`: the calls of `save(edt)` are the only ones that follow
the box, and the dialogs shown are the box and those of `save(edt)`. -/
theorem maybeSave_confirms (env : Env) (x : Nat) (w : World) (edt : EditorId)
    (hx : widget w x = some edt) :
    (isModified w edt = false → maybeSave env x w = some (true, w)) ∧
    (isModified w edt = true →
      ∃ r, maybeSave env x w = some r ∧
        (newEvents w r.2).head? = some (maybeSaveBox env w) ∧
        (newEvents w r.2).countP Event.isConfirmBox = 1 ∧
        (maybeSaveAnswer env w = .Cancel →
          r = (false, w.emit (maybeSaveBox env w)) ∧
          (newEvents w r.2).countP Event.isDialog = 1) ∧
        (maybeSaveAnswer env w = .Discard →
          r = (true, w.emit (maybeSaveBox env w)) ∧
          (newEvents w r.2).countP Event.isDialog = 1) ∧
        (maybeSaveAnswer env w = .Save →
          r = save env edt (w.emit (maybeSaveBox env w)) ∧
          newEvents w r.2 =
            maybeSaveBox env w :: newEvents (w.emit (maybeSaveBox env w)) r.2 ∧
          (newEvents w r.2).countP Event.isDialog =
            1 + (newEvents (w.emit (maybeSaveBox env w)) r.2).countP Event.isDialog)) := by
  constructor
  · intro h
    simp [maybeSave, hx, h]
  · intro h
    by_cases h1 : maybeSaveAnswer env w = .Save
    · refine ⟨save env edt (w.emit (maybeSaveBox env w)), by simp [maybeSave, hx, h, h1], ?_⟩
      obtain ⟨evs, he, hc⟩ := (save_frame env edt (w.emit (maybeSaveBox env w))).trace
      have ht : (save env edt (w.emit (maybeSaveBox env w))).2.trace =
          w.trace ++ (maybeSaveBox env w :: evs) := by
        rw [he]; simp [World.emit]
      rw [newEvents_of_trace _ _ _ ht, newEvents_of_trace _ _ _ he]
      simp [h1, hc, maybeSaveBox, Event.isConfirmBox, Event.isDialog, Nat.add_comm]
    · by_cases h2 : maybeSaveAnswer env w = .Cancel
      · refine ⟨(false, w.emit (maybeSaveBox env w)), by simp [maybeSave, hx, h, h1, h2], ?_⟩
        simp [newEvents, World.emit, h2, maybeSaveBox, Event.isConfirmBox, Event.isDialog]
      · refine ⟨(true, w.emit (maybeSaveBox env w)), by simp [maybeSave, hx, h, h1, h2], ?_⟩
        simp [newEvents, World.emit, h1, h2, maybeSaveBox, Event.isConfirmBox, Event.isDialog]

/-- On the sample window tab 0 is modified: answering Save writes `/d/a.scad`
and returns true, and answering Discard shows the one box and nothing else. -/
theorem maybeSave_confirms_witness :
    widget sampleWorld 0 = some 0 ∧ isModified sampleWorld 0 = true ∧
    (∃ r, maybeSave (sampleEnv true true true "" .Save) 0 sampleWorld = some r ∧
      (newEvents sampleWorld r.2).head? =
        some (maybeSaveBox (sampleEnv true true true "" .Save) sampleWorld) ∧
      (newEvents sampleWorld r.2).countP Event.isConfirmBox = 1) ∧
    (maybeSave (sampleEnv true true true "" .Discard) 0 sampleWorld).map
      (fun r => (r.1, (newEvents sampleWorld r.2).countP Event.isDialog)) = some (true, 1) :=
  ⟨by decide, by decide,
   let ⟨r, h1, h2, h3, _⟩ :=
     (maybeSave_confirms (sampleEnv true true true "" .Save) 0 sampleWorld 0 (by decide)).2
       (by decide)
   ⟨r, h1, h2, h3⟩,
   by decide⟩

/-- C6, the claim as worded fails: on the sample window tab 2 holds the modified
editor 2, which has no file. With the answer Save, `maybeSave(2)` shows two
dialogs, its confirmation box and the file dialog of `saveAs`, and returns
true. -/
theorem maybeSave_shows_two_dialogs :
    widget sampleWorld 2 = some 2 ∧ isModified sampleWorld 2 = true ∧
    (maybeSave (sampleEnv true true true "/d/n.scad" .Save) 2 sampleWorld).map
      (fun r => (r.1, (newEvents sampleWorld r.2).countP Event.isDialog)) = some (true, 2) := by
  decide

theorem saveAllLoop_frame (env : Env) (l : List EditorId) :
    ∀ w, Frame w (saveAllLoop env l w).2 := by
  induction l with
  | nil => intro w; exact Frame.refl w
  | cons e rest ih =>
    intro w
    unfold saveAllLoop
    by_cases hm : isModified w e = true
    · by_cases hs : (save env e w).1 = true
      · simp only [hm, hs, if_true, Bool.not_true, Bool.false_eq_true, if_false]
        exact (save_frame env e w).trans (ih _)
      · simp only [hm, hs, if_true, Bool.not_eq_true] at hs ⊢
        simp only [hs, Bool.not_false, if_true]
        exact save_frame env e w
    · simp only [hm, Bool.false_eq_true, if_false]
      exact ih w

theorem saveAllLoop_clean (env : Env) (l : List EditorId) :
    ∀ w, (saveAllLoop env l w).1 = true →
      ∀ e ∈ l, isModified (saveAllLoop env l w).2 e = false := by
  induction l with
  | nil => intro w _ e he; cases he
  | cons a rest ih =>
    intro w hret e he
    unfold saveAllLoop at hret ⊢
    by_cases hm : isModified w a = true
    · by_cases hs : (save env a w).1 = true
      · simp only [hm, hs, if_true, Bool.not_true, Bool.false_eq_true, if_false] at hret ⊢
        rcases List.mem_cons.1 he with rfl | hin
        · have h1 := save_success env e w hs
          by_contra hc
          have h2 := (saveAllLoop_frame env rest (save env e w).2).lowered e (by simpa using hc)
          rw [h1] at h2
          cases h2
        · exact ih _ hret e hin
      · simp only [Bool.not_eq_true] at hs
        simp [hm, hs] at hret
    · simp only [hm, Bool.false_eq_true, if_false] at hret ⊢
      rcases List.mem_cons.1 he with rfl | hin
      · by_contra hc
        exact hm ((saveAllLoop_frame env rest w).lowered e (by simpa using hc))
      · exact ih _ hret e hin

theorem saveAllLoop_eq_saveEach (env : Env) (l : List EditorId) :
    ∀ (w : World) (f : EditorId → Bool), l.Nodup → (∀ e ∈ l, isModified w e = f e) →
      (saveAllLoop env l w).2 = (saveEach env (l.filter f) w).2 ∧
      (saveAllLoop env l w).1 = (saveEach env (l.filter f) w).1.all id := by
  induction l with
  | nil => intro w f _ _; simp [saveAllLoop, saveEach]
  | cons a rest ih =>
    intro w f hnd hf
    have hnd' := (List.nodup_cons.1 hnd)
    have hfa := hf a (List.mem_cons_self _ _)
    unfold saveAllLoop
    by_cases hm : isModified w a = true
    · have hfa' : f a = true := by rw [← hfa]; exact hm
      rw [List.filter_cons_of_pos hfa']
      unfold saveEach
      by_cases hs : (save env a w).1 = true
      · simp only [hm, hs, if_true, Bool.not_true, Bool.false_eq_true, if_false]
        have hrest : ∀ e ∈ rest, isModified (save env a w).2 e = f e := by
          intro e he
          have hne : e ≠ a := fun h => hnd'.1 (h ▸ he)
          rw [← hf e (List.mem_cons_of_mem _ he)]
          unfold isModified
          rw [save_others env a w e hne]
        obtain ⟨h1, h2⟩ := ih (save env a w).2 f hnd'.2 hrest
        exact ⟨h1, by simp [h2]⟩
      · simp only [Bool.not_eq_true] at hs
        simp [hm, hs]
    · have hfa' : ¬ f a = true := by rw [← hfa]; exact hm
      rw [List.filter_cons_of_neg hfa']
      simp only [hm, Bool.false_eq_true, if_false]
      exact ih w f hnd'.2 (fun e he => hf e (List.mem_cons_of_mem _ he))

theorem saveEach_stops (env : Env) (l : List EditorId) :
    ∀ w, (saveEach env l w).1.dropLast.all id = true ∧
      (saveEach env l w).1.length ≤ l.length ∧
      ((saveEach env l w).1.all id = true → (saveEach env l w).1.length = l.length) := by
  induction l with
  | nil => intro w; simp [saveEach]
  | cons a rest ih =>
    intro w
    unfold saveEach
    by_cases hs : (save env a w).1 = true
    · simp only [hs, if_true]
      obtain ⟨h1, h2, h3⟩ := ih (save env a w).2
      refine ⟨?_, by simpa using h2, fun h => by simpa using h3 (by simpa using h)⟩
      cases hr : (saveEach env rest (save env a w).2).1 with
      | nil => simp
      | cons b bs =>
        rw [hr] at h1
        simpa [List.dropLast] using h1
    · simp [hs]

/-- C10: with the registry free of duplicates, `saveAll()` does what saving the
editors that are modified at the call, in registry order, with `save(edt)` and
stopping after the first failure does; it returns true exactly when every
save made returned true, only the last save made can have failed, a true
return means every modified editor was saved, and then no editor of the
registry is left with modified content or parameters. -/
theorem saveAll_saves_modified (env : Env) (w : World) (hnd : w.editorList.Nodup) :
    (saveAll env w).2 = (saveEach env (w.editorList.filter (isModified w)) w).2 ∧
    ((saveAll env w).1 = true ↔
      ∀ r ∈ (saveEach env (w.editorList.filter (isModified w)) w).1, r = true) ∧
    (∀ r ∈ (saveEach env (w.editorList.filter (isModified w)) w).1.dropLast, r = true) ∧
    ((saveAll env w).1 = true →
      (saveEach env (w.editorList.filter (isModified w)) w).1.length =
        (w.editorList.filter (isModified w)).length) ∧
    ((saveAll env w).1 = true →
      ∀ e ∈ w.editorList, isModified (saveAll env w).2 e = false) := by
  obtain ⟨h1, h2⟩ := saveAllLoop_eq_saveEach env w.editorList w (isModified w) hnd
    (fun _ _ => rfl)
  obtain ⟨h3, -, h5⟩ := saveEach_stops env (w.editorList.filter (isModified w)) w
  unfold saveAll
  refine ⟨h1, ?_, ?_, ?_, ?_⟩
  · rw [h2]; simp
  · simpa using h3
  · intro h; rw [h2] at h; exact h5 h
  · intro h; exact saveAllLoop_clean env w.editorList w h

/-- On the sample window, where editors 0 and 2 are modified: when every write
succeeds `saveAll()` returns true and leaves no editor modified; when commits
fail it stops after the first save and returns false. -/
theorem saveAll_saves_modified_witness :
    sampleWorld.editorList.Nodup ∧
    (saveAll (sampleEnv true true true "/d/n.scad" .Yes) sampleWorld).1 = true ∧
    (∀ e ∈ sampleWorld.editorList,
      isModified (saveAll (sampleEnv true true true "/d/n.scad" .Yes) sampleWorld).2 e = false) ∧
    (saveEach (sampleEnv true true false "/d/n.scad" .Yes)
      (sampleWorld.editorList.filter (isModified sampleWorld)) sampleWorld).1 = [false] ∧
    (saveAll (sampleEnv true true false "/d/n.scad" .Yes) sampleWorld).1 = false :=
  ⟨by decide, by decide,
   (saveAll_saves_modified (sampleEnv true true true "/d/n.scad" .Yes) sampleWorld
      (by decide)).2.2.2.2 (by decide),
   by decide, by decide⟩

theorem shouldCloseLoop_trace (env : Env) (l : List EditorId) :
    ∀ w, ∃ evs, (shouldCloseLoop env l w).2.trace = w.trace ++ evs := by
  induction l with
  | nil => intro w; exact ⟨[], by simp [shouldCloseLoop]⟩
  | cons a rest ih =>
    intro w
    unfold shouldCloseLoop
    by_cases hm : isModified w a = true
    · simp only [hm, Bool.not_true, Bool.false_eq_true, if_false]
      by_cases h1 : shouldCloseAnswer env w = .Cancel
      · rw [if_pos h1]; exact ⟨_, rfl⟩
      · rw [if_neg h1]
        by_cases h2 : shouldCloseAnswer env w = .Discard
        · rw [if_pos h2]; exact ⟨_, rfl⟩
        · rw [if_neg h2]
          by_cases h3 : shouldCloseAnswer env w = .SaveAll
          · rw [if_pos h3]
            obtain ⟨evs, he, -⟩ :=
              (saveAllLoop_frame env (w.emit (shouldCloseBox env w)).editorList
                (w.emit (shouldCloseBox env w))).trace
            refine ⟨shouldCloseBox env w :: evs, ?_⟩
            unfold saveAll
            rw [he]; simp [World.emit]
          · rw [if_neg h3]
            obtain ⟨evs, he⟩ := ih (w.emit (shouldCloseBox env w))
            refine ⟨shouldCloseBox env w :: evs, ?_⟩
            rw [he]; simp [World.emit]
    · simp only [Bool.not_eq_true] at hm
      simp only [hm, Bool.not_false, if_true]
      exact ih w

theorem shouldCloseLoop_clean (env : Env) (l : List EditorId) (w : World)
    (h : ∀ e ∈ l, isModified w e = false) : shouldCloseLoop env l w = (true, w) := by
  induction l with
  | nil => simp [shouldCloseLoop]
  | cons a rest ih =>
    unfold shouldCloseLoop
    simp only [h a (List.mem_cons_self _ _), Bool.not_false, if_true]
    exact ih (fun e he => h e (List.mem_cons_of_mem _ he))

theorem shouldCloseLoop_asks (env : Env) (l : List EditorId) (w : World)
    (h : ∃ e ∈ l, isModified w e = true) :
    (∃ evs, (shouldCloseLoop env l w).2.trace = w.trace ++ shouldCloseBox env w :: evs) ∧
    (shouldCloseAnswer env w = .Cancel →
      shouldCloseLoop env l w = (false, w.emit (shouldCloseBox env w))) ∧
    (shouldCloseAnswer env w = .Discard →
      shouldCloseLoop env l w = (true, w.emit (shouldCloseBox env w))) ∧
    (shouldCloseAnswer env w = .SaveAll →
      shouldCloseLoop env l w = saveAll env (w.emit (shouldCloseBox env w))) := by
  induction l with
  | nil => obtain ⟨e, he, -⟩ := h; cases he
  | cons a rest ih =>
    unfold shouldCloseLoop
    by_cases hm : isModified w a = true
    · simp only [hm, Bool.not_true, Bool.false_eq_true, if_false]
      by_cases h1 : shouldCloseAnswer env w = .Cancel
      · rw [if_pos h1]
        exact ⟨⟨[], rfl⟩, fun _ => rfl, fun h => absurd (h1.symm.trans h) (by decide),
          fun h => absurd (h1.symm.trans h) (by decide)⟩
      · rw [if_neg h1]
        by_cases h2 : shouldCloseAnswer env w = .Discard
        · rw [if_pos h2]
          exact ⟨⟨[], rfl⟩, fun h => absurd h h1, fun _ => rfl,
            fun h => absurd (h2.symm.trans h) (by decide)⟩
        · rw [if_neg h2]
          by_cases h3 : shouldCloseAnswer env w = .SaveAll
          · rw [if_pos h3]
            refine ⟨?_, fun h => absurd h h1, fun h => absurd h h2, fun _ => rfl⟩
            obtain ⟨evs, he, -⟩ :=
              (saveAllLoop_frame env (w.emit (shouldCloseBox env w)).editorList
                (w.emit (shouldCloseBox env w))).trace
            refine ⟨evs, ?_⟩
            unfold saveAll
            rw [he]; simp [World.emit]
          · rw [if_neg h3]
            refine ⟨?_, fun h => absurd h h1, fun h => absurd h h2, fun h => absurd h h3⟩
            obtain ⟨evs, he⟩ := shouldCloseLoop_trace env rest (w.emit (shouldCloseBox env w))
            refine ⟨evs, ?_⟩
            rw [he]; simp [World.emit]
    · simp only [Bool.not_eq_true] at hm
      simp only [hm, Bool.not_false, if_true]
      apply ih
      obtain ⟨e, he, hme⟩ := h
      rcases List.mem_cons.1 he with rfl | hin
      · rw [hm] at hme; cases hme
      · exact ⟨e, hin, hme⟩

/-- C7, as amended: `shouldClose()` returns true without any dialog exactly when no editor
of the registry has modified content or parameters, and then it does nothing
at all. Otherwise the first call it makes is its confirmation box; on Cancel
it returns false and on Discard true, in both cases with no other call than
that one box; on SaveAll it returns the result of `saveAll()`, the box is the
only confirmation box of the run and the calls of `saveAll()` are the only
ones that follow it. -/
theorem shouldClose_confirms (env : Env) (w : World) :
    (((shouldClose env w).1 = true ∧
        (newEvents w (shouldClose env w).2).countP Event.isDialog = 0) ↔
      ∀ e ∈ w.editorList, isModified w e = false) ∧
    ((∀ e ∈ w.editorList, isModified w e = false) → shouldClose env w = (true, w)) ∧
    ((∃ e ∈ w.editorList, isModified w e = true) →
      (newEvents w (shouldClose env w).2).head? = some (shouldCloseBox env w) ∧
      (shouldCloseAnswer env w = .Cancel →
        shouldClose env w = (false, w.emit (shouldCloseBox env w)) ∧
        newEvents w (shouldClose env w).2 = [shouldCloseBox env w]) ∧
      (shouldCloseAnswer env w = .Discard →
        shouldClose env w = (true, w.emit (shouldCloseBox env w)) ∧
        newEvents w (shouldClose env w).2 = [shouldCloseBox env w]) ∧
      (shouldCloseAnswer env w = .SaveAll →
        shouldClose env w = saveAll env (w.emit (shouldCloseBox env w)) ∧
        (newEvents w (shouldClose env w).2).countP Event.isConfirmBox = 1 ∧
        newEvents w (shouldClose env w).2 = shouldCloseBox env w ::
          newEvents (w.emit (shouldCloseBox env w)) (shouldClose env w).2 ∧
        (newEvents w (shouldClose env w).2).countP Event.isDialog =
          1 + (newEvents (w.emit (shouldCloseBox env w)) (shouldClose env w).2).countP
            Event.isDialog)) := by
  have hclean : (∀ e ∈ w.editorList, isModified w e = false) → shouldClose env w = (true, w) :=
    fun h => shouldCloseLoop_clean env w.editorList w h
  have hasks := shouldCloseLoop_asks env w.editorList w
  refine ⟨⟨?_, ?_⟩, hclean, ?_⟩
  · rintro ⟨-, hc⟩
    by_contra hne
    have hex : ∃ e ∈ w.editorList, isModified w e = true := by
      by_contra hno
      apply hne
      intro e he
      by_contra hm
      exact hno ⟨e, he, by simpa using hm⟩
    obtain ⟨⟨evs, ht⟩, -⟩ := hasks hex
    rw [shouldClose, newEvents_of_trace _ _ _ ht] at hc
    simp [shouldCloseBox, Event.isDialog] at hc
  · intro h
    rw [hclean h]
    simp [newEvents]
  · intro hex
    obtain ⟨⟨evs, ht⟩, h1, h2, h3⟩ := hasks hex
    refine ⟨?_, ?_, ?_, ?_⟩
    · rw [shouldClose, newEvents_of_trace _ _ _ ht]; rfl
    · intro h
      have := h1 h
      refine ⟨this, ?_⟩
      rw [shouldClose, this]; simp [newEvents, World.emit]
    · intro h
      have := h2 h
      refine ⟨this, ?_⟩
      rw [shouldClose, this]; simp [newEvents, World.emit]
    · intro h
      have := h3 h
      refine ⟨this, ?_⟩
      rw [shouldClose, this]
      obtain ⟨evs2, he, hc⟩ :=
        (saveAllLoop_frame env (w.emit (shouldCloseBox env w)).editorList
          (w.emit (shouldCloseBox env w))).trace
      have ht2 : (saveAll env (w.emit (shouldCloseBox env w))).2.trace =
          w.trace ++ (shouldCloseBox env w :: evs2) := by
        unfold saveAll; rw [he]; simp [World.emit]
      have he2 : (saveAll env (w.emit (shouldCloseBox env w))).2.trace =
          (w.emit (shouldCloseBox env w)).trace ++ evs2 := by
        unfold saveAll; exact he
      rw [newEvents_of_trace _ _ _ ht2, newEvents_of_trace _ _ _ he2]
      simp [hc, shouldCloseBox, Event.isConfirmBox, Event.isDialog, Nat.add_comm]

/-- On the sample window two editors are modified: the question is asked once;
Discard returns true with no other call, SaveAll returns what `saveAll()`
returns. -/
theorem shouldClose_confirms_witness :
    (∃ e ∈ sampleWorld.editorList, isModified sampleWorld e = true) ∧
    shouldClose (sampleEnv true true true "/d/n.scad" .Discard) sampleWorld =
      (true, sampleWorld.emit
        (shouldCloseBox (sampleEnv true true true "/d/n.scad" .Discard) sampleWorld)) ∧
    (newEvents sampleWorld
      (shouldClose (sampleEnv true true true "/d/n.scad" .SaveAll) sampleWorld).2).countP
        Event.isConfirmBox = 1 :=
  ⟨by decide,
   (((shouldClose_confirms (sampleEnv true true true "/d/n.scad" .Discard) sampleWorld).2.2
      (by decide)).2.2.1 (by decide)).1,
   (((shouldClose_confirms (sampleEnv true true true "/d/n.scad" .SaveAll) sampleWorld).2.2
      (by decide)).2.2.2 (by decide)).2.1⟩

/-- C7, the claim as worded fails: on the sample window editors 0 and 2 are
modified and editor 2 has no file. With the answer SaveAll, `shouldClose()`
shows two dialogs, its confirmation box and the file dialog of `saveAs` for
editor 2, and returns true. -/
theorem shouldClose_shows_two_dialogs :
    (∃ e ∈ sampleWorld.editorList, isModified sampleWorld e = true) ∧
    (shouldClose (sampleEnv true true true "/d/n.scad" .SaveAll) sampleWorld).1 = true ∧
    (newEvents sampleWorld
      (shouldClose (sampleEnv true true true "/d/n.scad" .SaveAll) sampleWorld).2).countP
        Event.isDialog = 2 := by
  decide

theorem refreshDocument_shape (env : Env) (w : World) :
    (refreshDocument env w).2.editorList = w.editorList ∧
    (refreshDocument env w).2.tabs = w.tabs ∧
    (refreshDocument env w).2.nextId = w.nextId ∧
    (refreshDocument env w).2.editor = w.editor := by
  unfold refreshDocument
  simp only [World.emit]
  split
  · split
    · simp
    · split <;> simp [setContentRenderState, setPlainText, World.setEditor, World.emit]
  · simp

theorem setTabName_shape (env : Env) (f : String) (edt : Option EditorId) (w : World) :
    (setTabName env f edt w).editorList = w.editorList ∧
    (setTabName env f edt w).tabs.map Tab.widget = w.tabs.map Tab.widget ∧
    (setTabName env f edt w).nextId = w.nextId ∧
    (setTabName env f edt w).editor = w.editor := by
  obtain ⟨h1, h2, h3, -, -, h6, -⟩ := setTabName_fields env f edt w
  exact ⟨h1, h6, h2, h3⟩

theorem openTabFile_shape (env : Env) (f : String) (w : World) :
    (openTabFile env f w).editorList = w.editorList ∧
    (openTabFile env f w).tabs.map Tab.widget = w.tabs.map Tab.widget ∧
    (openTabFile env f w).nextId = w.nextId := by
  unfold openTabFile
  simp only []
  repeat' split
  all_goals
    simp [World.emit, setPlainText, parameterReadFile, World.setEditor, refreshDocument_shape,
      setTabName_shape]

theorem createTab_shape (env : Env) (f : String) (w : World) :
    (createTab env f w).editorList =
      (if w.nextId ∈ w.editorList then w.editorList else w.editorList ++ [w.nextId]) ∧
    tabEditors (createTab env f w) = tabEditors w ++ [w.nextId] ∧
    (createTab env f w).nextId = w.nextId + 1 := by
  unfold createTab tabEditors
  by_cases hf : f = "" <;> by_cases he : w.editorList.isEmpty = true <;>
    simp [hf, he, World.emit, World.setEditor, addTab, openTabFile_shape, setTabName_shape]

theorem maybeSave_shape (env : Env) (x : Nat) (w : World) (edt : EditorId)
    (hx : widget w x = some edt) :
    ∃ r w1, maybeSave env x w = some (r, w1) ∧
      w1.editorList = w.editorList ∧ tabEditors w1 = tabEditors w ∧ w1.nextId = w.nextId ∧
      (r = false → w1.tabs = w.tabs ∧ w1.editors = w.editors ∧ w1.fs = w.fs) := by
  unfold maybeSave
  rw [hx]
  by_cases hm : isModified w edt = true
  · simp only [hm, if_true]
    by_cases h1 : maybeSaveAnswer env w = .Save
    · rw [if_pos h1]
      have hf := save_frame env edt (w.emit (maybeSaveBox env w))
      refine ⟨_, _, rfl, hf.editorList, hf.tabEditors, hf.nextId, fun hr => ?_⟩
      obtain ⟨a, b, c, -⟩ := save_failure env edt (w.emit (maybeSaveBox env w)) hr
      exact ⟨b, a, c⟩
    · rw [if_neg h1]
      by_cases h2 : maybeSaveAnswer env w = .Cancel
      · rw [if_pos h2]
        exact ⟨_, _, rfl, rfl, rfl, rfl, fun _ => ⟨rfl, rfl, rfl⟩⟩
      · rw [if_neg h2]
        exact ⟨_, _, rfl, rfl, rfl, rfl, fun _ => ⟨rfl, rfl, rfl⟩⟩
  · simp only [hm, Bool.false_eq_true, if_false]
    exact ⟨_, _, rfl, rfl, rfl, rfl, fun _ => ⟨rfl, rfl, rfl⟩⟩

theorem mem_eraseIdx_of_nodup (l : List EditorId) (x : Nat) (a : EditorId) (hnd : l.Nodup)
    (hx : l[x]? = some a) (e : EditorId) : e ∈ l.eraseIdx x ↔ e ∈ l ∧ e ≠ a := by
  obtain ⟨hlt, hget⟩ := List.getElem?_eq_some.1 hx
  rw [← List.Nodup.erase_getElem hnd x hlt, hget, List.Nodup.mem_erase_iff hnd]
  exact And.comm

theorem map_eraseIdx {α β : Type} (f : α → β) (l : List α) (x : Nat) :
    (l.eraseIdx x).map f = (l.map f).eraseIdx x := by
  induction l generalizing x with
  | nil => simp
  | cons a l ih =>
    cases x with
    | zero => simp
    | succ x => simp [ih x]

theorem closeTabRequested_cases (env : Env) (x : Nat) (w : World) (edt : EditorId)
    (hx : widget w x = some edt) :
    ∃ r w1, maybeSave env x w = some (r, w1) ∧
      (r = false → closeTabRequested env x w = some w1 ∧
        w1.editorList = w.editorList ∧ w1.tabs = w.tabs ∧ w1.nextId = w.nextId) ∧
      (r = true → ∃ w2, closeTabRequested env x w = some w2 ∧
        w2.editorList = w.editorList.filter (fun e => e != edt) ∧
        tabEditors w2 = (tabEditors w).eraseIdx x ∧ w2.nextId = w.nextId) := by
  obtain ⟨r, w1, hm, h1, h2, h3, h4⟩ := maybeSave_shape env x w edt hx
  refine ⟨r, w1, hm, ?_, ?_⟩
  · intro hr
    subst hr
    refine ⟨?_, h1, (h4 rfl).1, h3⟩
    unfold closeTabRequested
    rw [hm]
  · intro hr
    subst hr
    have hx1 : widget w1 x = some edt := by
      unfold widget at hx ⊢
      rw [h2]; exact hx
    have hc : ∃ w2, closeTabRequested env x w = some w2 ∧
        w2.editorList = w1.editorList.filter (fun e => e != edt) ∧
        w2.tabs = w1.tabs.eraseIdx x ∧ w2.nextId = w1.nextId := by
      unfold closeTabRequested
      rw [hm]
      simp only [hx1]
      exact ⟨_, rfl, rfl, rfl, rfl⟩
    obtain ⟨w2, c1, c2, c3, c4⟩ := hc
    refine ⟨w2, c1, by rw [c2, h1], ?_, by rw [c4, h3]⟩
    unfold tabEditors at h2 ⊢
    rw [c3, map_eraseIdx, h2]

/-- C8: for a tab index `x` holding the editor `edt`, `closeTabRequested(x)`
leaves the registry and the tab list as they were when `maybeSave(x)` returns
false; when it returns true the registry loses `edt` and nothing else, and the
tab list loses the tab at `x` and nothing else. So a registry that held
exactly the editors shown as tabs, each in one tab, still does afterwards, and
likewise after `createTab`, which adds the new editor to both. -/
theorem closeTabRequested_all_or_nothing (env : Env) (x : Nat) (w : World) (edt : EditorId)
    (hx : widget w x = some edt) :
    (∃ r w1, maybeSave env x w = some (r, w1) ∧
      (r = false → closeTabRequested env x w = some w1 ∧
        w1.editorList = w.editorList ∧ w1.tabs = w.tabs) ∧
      (r = true → ∃ w2, closeTabRequested env x w = some w2 ∧
        w2.editorList = w.editorList.filter (fun e => e != edt) ∧
        tabEditors w2 = (tabEditors w).eraseIdx x)) ∧
    (TabsDistinct w → RegistryMatchesTabs w →
      ∃ w2, closeTabRequested env x w = some w2 ∧ RegistryMatchesTabs w2 ∧ TabsDistinct w2) ∧
    (∀ f, tabEditors (createTab env f w) = tabEditors w ++ [w.nextId] ∧
      (∀ e, e ∈ (createTab env f w).editorList ↔ e ∈ w.editorList ∨ e = w.nextId) ∧
      (RegistryMatchesTabs w → RegistryMatchesTabs (createTab env f w)) ∧
      (TabsDistinct w → TabsDistinct (createTab env f w))) := by
  obtain ⟨r, w1, hm, hfalse, htrue⟩ := closeTabRequested_cases env x w edt hx
  refine ⟨⟨r, w1, hm, ?_, ?_⟩, ?_, ?_⟩
  · intro hr
    obtain ⟨a, b, c, -⟩ := hfalse hr
    exact ⟨a, b, c⟩
  · intro hr
    obtain ⟨w2, a, b, c, -⟩ := htrue hr
    exact ⟨w2, a, b, c⟩
  · intro hd hreg
    cases r with
    | false =>
      obtain ⟨a, b, c, d⟩ := hfalse rfl
      refine ⟨w1, a, ?_, ?_⟩
      · intro e
        unfold tabEditors
        rw [b, c]
        exact hreg e
      · unfold TabsDistinct tabEditors
        rw [c, d]
        exact hd
    | true =>
      obtain ⟨w2, a, b, c, d⟩ := htrue rfl
      have hmem := mem_eraseIdx_of_nodup (tabEditors w) x edt hd.1 hx
      refine ⟨w2, a, ?_, ?_⟩
      · intro e
        rw [b, c, hmem e, List.mem_filter, hreg e]
        simp
      · unfold TabsDistinct
        rw [c, d]
        exact ⟨hd.1.sublist (List.eraseIdx_sublist _ _),
          fun e he => hd.2 e (List.eraseIdx_subset _ _ he)⟩
  · intro f
    obtain ⟨c1, c2, c3⟩ := createTab_shape env f w
    have hmem : ∀ e, e ∈ (createTab env f w).editorList ↔ e ∈ w.editorList ∨ e = w.nextId := by
      intro e
      rw [c1]
      by_cases hin : w.nextId ∈ w.editorList
      · rw [if_pos hin]
        constructor
        · exact Or.inl
        · rintro (h | h)
          · exact h
          · rw [h]; exact hin
      · rw [if_neg hin]; simp
    refine ⟨c2, hmem, ?_, ?_⟩
    · intro hreg e
      rw [hmem e, c2, hreg e]
      simp
    · intro hd
      unfold TabsDistinct
      rw [c2, c3]
      refine ⟨?_, ?_⟩
      · rw [List.nodup_append]
        refine ⟨hd.1, by simp, ?_⟩
        intro a ha hb
        have hlt : a < w.nextId := hd.2 a ha
        rw [List.mem_singleton] at hb
        rw [hb] at hlt
        exact Nat.lt_irrefl _ hlt
      · intro e he
        rcases List.mem_append.1 he with h | h
        · exact Nat.lt_succ_of_lt (hd.2 e h)
        · rw [List.mem_singleton] at h
          rw [h]
          exact Nat.lt_succ_self _

/-- On the sample window the unmodified tab 1 closes without a question: the
registry and the tab list both lose editor 1 and keep editors 0 and 2. -/
theorem closeTabRequested_all_or_nothing_witness :
    widget sampleWorld 1 = some 1 ∧ TabsDistinct sampleWorld ∧
    RegistryMatchesTabs sampleWorld ∧
    ∃ w2, closeTabRequested (sampleEnv true true true "" .Cancel) 1 sampleWorld = some w2 ∧
      RegistryMatchesTabs w2 ∧ TabsDistinct w2 :=
  have hd : TabsDistinct sampleWorld := by
    simp [TabsDistinct, tabEditors, sampleWorld]
  have hr : RegistryMatchesTabs sampleWorld := by
    intro e
    simp [tabEditors, sampleWorld]
    tauto
  ⟨by decide, hd, hr,
   (closeTabRequested_all_or_nothing (sampleEnv true true true "" .Cancel) 1 sampleWorld 1
      (by decide)).2.1 hd hr⟩

theorem next_index_val (i n : Int) (h0 : 0 ≤ i) (h1 : i < n) :
    Int.tmod (i + 1) n = (i + 1) % n ∧
    (i + 1) % n = if i + 1 = n then 0 else i + 1 := by
  refine ⟨Int.tmod_eq_emod (by omega) (by omega), ?_⟩
  split
  · next h => rw [h]; exact Int.emod_self
  · next h => exact Int.emod_eq_of_lt (by omega) (by omega)

theorem prev_index_val (i n : Int) (h0 : 0 ≤ i) (h1 : i < n) :
    Int.tmod (i + n - 1) n = (i + n - 1) % n ∧
    (i + n - 1) % n = if i = 0 then n - 1 else i - 1 := by
  refine ⟨Int.tmod_eq_emod (by omega) (by omega), ?_⟩
  split
  · next h =>
    have h2 : i + n - 1 = n - 1 := by omega
    rw [h2]
    exact Int.emod_eq_of_lt (by omega) (by omega)
  · next h =>
    have : i + n - 1 = (i - 1) + 1 * n := by omega
    rw [this, Int.add_mul_emod_self]
    exact Int.emod_eq_of_lt (by omega) (by omega)

theorem setCurrentIndex_of_range (i : Int) (w : World) (h0 : 0 ≤ i) (h1 : i < count w) :
    setCurrentIndex i w = { w with currentIndex := i } := by
  unfold setCurrentIndex
  rw [if_pos ⟨h0, h1⟩]

/-- C12: with `n > 0` tabs and the current index `i` in `[0, n)`, `nextTab()`
sets the current index to `(i + 1) mod n` and `prevTab()` to
`(i + n - 1) mod n`; both stay in `[0, n)`, `nextTab()` from `n - 1` gives `0`,
`prevTab()` from `0` gives `n - 1`, and each undoes the other, leaving the
whole state as it was. Up to `2^30` tabs every sum the source forms lies in
the range of a 32-bit `int`. -/
theorem nextTab_prevTab_cycle (w : World) (hn : 0 < count w) (h0 : 0 ≤ w.currentIndex)
    (h1 : w.currentIndex < count w) :
    (nextTab w).currentIndex = (w.currentIndex + 1) % count w ∧
    (prevTab w).currentIndex = (w.currentIndex + count w - 1) % count w ∧
    (0 ≤ (nextTab w).currentIndex ∧ (nextTab w).currentIndex < count w) ∧
    (0 ≤ (prevTab w).currentIndex ∧ (prevTab w).currentIndex < count w) ∧
    (w.currentIndex = count w - 1 → (nextTab w).currentIndex = 0) ∧
    (w.currentIndex = 0 → (prevTab w).currentIndex = count w - 1) ∧
    prevTab (nextTab w) = w ∧
    nextTab (prevTab w) = w ∧
    (count w ≤ 1073741824 →
      w.currentIndex + 1 < 2147483648 ∧ w.currentIndex + count w < 2147483648 ∧
      0 ≤ w.currentIndex + count w - 1) := by
  obtain ⟨a1, a2⟩ := next_index_val w.currentIndex (count w) h0 h1
  obtain ⟨b1, b2⟩ := prev_index_val w.currentIndex (count w) h0 h1
  have hnext : nextTab w = { w with currentIndex := (w.currentIndex + 1) % count w } := by
    unfold nextTab
    rw [a1]
    exact setCurrentIndex_of_range _ w (Int.emod_nonneg _ (by omega))
      (Int.emod_lt_of_pos _ hn)
  have hprev : prevTab w = { w with currentIndex := (w.currentIndex + count w - 1) % count w } := by
    unfold prevTab
    rw [b1]
    exact setCurrentIndex_of_range _ w (Int.emod_nonneg _ (by omega))
      (Int.emod_lt_of_pos _ hn)
  have hn0 : 0 ≤ (w.currentIndex + 1) % count w := Int.emod_nonneg _ (by omega)
  have hn1 : (w.currentIndex + 1) % count w < count w := Int.emod_lt_of_pos _ hn
  have hp0 : 0 ≤ (w.currentIndex + count w - 1) % count w := Int.emod_nonneg _ (by omega)
  have hp1 : (w.currentIndex + count w - 1) % count w < count w := Int.emod_lt_of_pos _ hn
  refine ⟨by rw [hnext], by rw [hprev], by rw [hnext]; exact ⟨hn0, hn1⟩,
    by rw [hprev]; exact ⟨hp0, hp1⟩, ?_, ?_, ?_, ?_, fun hb => by omega⟩
  · intro h
    rw [hnext]
    show (w.currentIndex + 1) % count w = 0
    rw [a2, if_pos (by omega)]
  · intro h
    rw [hprev]
    show (w.currentIndex + count w - 1) % count w = count w - 1
    rw [b2, if_pos h]
  · rw [hnext]
    unfold prevTab
    have hc : count { w with currentIndex := (w.currentIndex + 1) % count w } = count w := rfl
    rw [hc]
    show setCurrentIndex (Int.tmod ((w.currentIndex + 1) % count w + count w - 1) (count w)) _ = w
    obtain ⟨c1, c2⟩ := prev_index_val ((w.currentIndex + 1) % count w) (count w) hn0 hn1
    rw [c1, c2, setCurrentIndex_of_range _ _ (by split <;> omega) (by rw [hc]; split <;> omega)]
    have : (if (w.currentIndex + 1) % count w = 0 then count w - 1
        else (w.currentIndex + 1) % count w - 1) = w.currentIndex := by
      rw [a2]
      split <;> split <;> omega
    rw [this]
  · rw [hprev]
    unfold nextTab
    have hc : count { w with currentIndex := (w.currentIndex + count w - 1) % count w } =
        count w := rfl
    rw [hc]
    show setCurrentIndex (Int.tmod ((w.currentIndex + count w - 1) % count w + 1) (count w)) _ = w
    obtain ⟨c1, c2⟩ := next_index_val ((w.currentIndex + count w - 1) % count w) (count w) hp0 hp1
    rw [c1, c2, setCurrentIndex_of_range _ _ (by split <;> omega) (by rw [hc]; split <;> omega)]
    have : (if (w.currentIndex + count w - 1) % count w + 1 = count w then 0
        else (w.currentIndex + count w - 1) % count w + 1) = w.currentIndex := by
      rw [b2]
      split <;> split <;> omega
    rw [this]

/-- On the sample window, three tabs with tab 0 current: `prevTab()` wraps to
tab 2, `nextTab()` goes to tab 1, and `prevTab()` after `nextTab()` is back at
tab 0. -/
theorem nextTab_prevTab_cycle_witness :
    (0 < count sampleWorld ∧ 0 ≤ sampleWorld.currentIndex ∧
      sampleWorld.currentIndex < count sampleWorld) ∧
    (nextTab sampleWorld).currentIndex = 1 ∧ (prevTab sampleWorld).currentIndex = 2 ∧
    (prevTab (nextTab sampleWorld)).currentIndex = 0 :=
  ⟨by decide,
   (nextTab_prevTab_cycle sampleWorld (by decide) (by decide) (by decide)).1.trans (by decide),
   (nextTab_prevTab_cycle sampleWorld (by decide) (by decide) (by decide)).2.1.trans
     (by decide),
   congrArg World.currentIndex
     (nextTab_prevTab_cycle sampleWorld (by decide) (by decide) (by decide)).2.2.2.2.2.2.1⟩

theorem replaceAux_roundtrip (l : List Char) :
    replaceAux '&' ['&'] ['&'] 0 (replaceAux '&' [] ['&', '&'] 0 l) = l := by
  induction l with
  | nil => simp [replaceAux]
  | cons c cs ih =>
    by_cases hc : c = '&'
    · subst hc
      simp [replaceAux, List.isPrefixOf, ih]
    · have hne : ('&' == c) = false := by
        simp only [beq_eq_false_iff_ne, ne_eq]
        exact fun h => hc h.symm
      simp [replaceAux, List.isPrefixOf, hne, ih]

theorem unescapeAmp_escapeAmp (s : String) : unescapeAmp (escapeAmp s) = s := by
  unfold unescapeAmp escapeAmp
  simp only [replaceAux_roundtrip]

theorem setTab_label (w : World) (edt : EditorId) (x : Nat) (s tip : String)
    (hi : indexOf w edt = some x) :
    tabText (setTabToolTip (indexOf (setTabText (indexOf w edt) s w) edt) tip
      (setTabText (indexOf w edt) s w)) x = s ∧
    widget (setTabToolTip (indexOf (setTabText (indexOf w edt) s w) edt) tip
      (setTabText (indexOf w edt) s w)) x = some edt ∧
    (setTabToolTip (indexOf (setTabText (indexOf w edt) s w) edt) tip
      (setTabText (indexOf w edt) s w)).windowTitle = w.windowTitle := by
  obtain ⟨t, ht, hw⟩ := indexOf_some w edt x hi
  have hlt : x < w.tabs.length := by
    by_contra hc
    rw [List.getElem?_eq_none (Nat.le_of_not_lt hc)] at ht
    cases ht
  have h2 : indexOf (setTabText (some x) s w) edt = some x := by
    rw [← hi]
    exact indexOf_congr _ _ _ (setTabText_eq _ _ _).2
  rw [hi, h2]
  refine ⟨?_, ?_, ?_⟩
  · simp [tabText, setTabText, setTabToolTip, ht, List.getElem?_set, hlt]
  · simp [widget, tabEditors, setTabText, setTabToolTip, ht, List.getElem?_set, hlt, hw]
  · simp [setTabText_fields, setTabToolTip_fields]

theorem tabSwitched_title (w : World) (edt : EditorId) (x : Nat) (hw : widget w x = some edt) :
    ∃ w', tabSwitched x w = some w' ∧ w'.windowTitle = unescapeAmp (tabText w x) ∧
      w'.editor = edt := by
  unfold tabSwitched
  rw [hw]
  exact ⟨_, rfl, rfl, rfl⟩

theorem setTabModified_label (env : Env) (edt : EditorId) (w : World) (x : Nat)
    (hi : indexOf w edt = some x) :
    tabText (setTabModified env edt w) x = escapeAmp (tabModifiedName env w edt) ∧
    widget (setTabModified env edt w) x = some edt ∧
    (edt = w.editor → (setTabModified env edt w).windowTitle = tabModifiedName env w edt) := by
  unfold setTabModified
  by_cases he : edt = w.editor
  · simp only [he, if_true]
    have hi' : indexOf { w with windowTitle := tabModifiedName env w w.editor } w.editor
        = some x := by
      rw [← he, ← hi]; exact indexOf_congr _ _ _ rfl
    obtain ⟨a, b, c⟩ := setTab_label { w with windowTitle := tabModifiedName env w w.editor }
      w.editor x (escapeAmp (tabModifiedName env w w.editor)) (tabModifiedPath env w w.editor) hi'
    exact ⟨a, b, fun _ => c⟩
  · simp only []
    rw [if_neg he]
    obtain ⟨a, b, -⟩ := setTab_label w edt x (escapeAmp (tabModifiedName env w edt))
      (tabModifiedPath env w edt) hi
    exact ⟨a, b, fun h => absurd h he⟩

theorem setTabName_title (env : Env) (f : String) (edt : EditorId) (w : World) (x : Nat)
    (hf : f ≠ "") (hi : indexOf w edt = some x) :
    tabText (setTabName env f (some edt) w) x = escapeAmp (env.fileName f) ∧
    widget (setTabName env f (some edt) w) x = some edt ∧
    (setTabName env f (some edt) w).windowTitle = env.fileName f := by
  have hl := setTabName_label env f edt w x hf hi
  obtain ⟨t, ht, hw⟩ := indexOf_some w edt x hi
  refine ⟨?_, ?_, ?_⟩
  · unfold tabText
    rw [hl]; rfl
  · unfold widget
    rw [(setTabName_fields env f (some edt) w).2.2.2.2.2.1]
    simp [tabEditors, ht, hw]
  · simp [setTabName, hf]

/-- C13: the doubling of `&` that `setTabModified` and `setTabName` apply to the
tab label is undone by the halving of `&&` that `tabSwitched` applies to it:
for every string `s`, with or without a trailing `*` and with any number of
`&`, replacing each `&` by `&&` and then each `&&` by `&` gives `s` again. So
for the tab `x` of an editor, `tabSwitched(x)` after `setTabModified` sets the
window title to the name `setTabModified` computed, the title it sets itself
when the editor is the current one; and after `setTabName` with a file it sets
the title `setTabName` set. -/
theorem tab_label_escape_roundtrip :
    (∀ s : String, unescapeAmp (escapeAmp s) = s) ∧
    (∀ s : String, unescapeAmp (escapeAmp (s ++ "*")) = s ++ "*") ∧
    (∀ (env : Env) (edt : EditorId) (w : World) (x : Nat), indexOf w edt = some x →
      tabText (setTabModified env edt w) x = escapeAmp (tabModifiedName env w edt) ∧
      (edt = w.editor → (setTabModified env edt w).windowTitle = tabModifiedName env w edt) ∧
      ∃ w', tabSwitched x (setTabModified env edt w) = some w' ∧
        w'.windowTitle = tabModifiedName env w edt) ∧
    (∀ (env : Env) (f : String) (edt : EditorId) (w : World) (x : Nat), f ≠ "" →
      indexOf w edt = some x →
      tabText (setTabName env f (some edt) w) x = escapeAmp (env.fileName f) ∧
      ∃ w', tabSwitched x (setTabName env f (some edt) w) = some w' ∧
        w'.windowTitle = (setTabName env f (some edt) w).windowTitle) := by
  refine ⟨unescapeAmp_escapeAmp, fun s => unescapeAmp_escapeAmp _, ?_, ?_⟩
  · intro env edt w x hi
    obtain ⟨a, b, c⟩ := setTabModified_label env edt w x hi
    obtain ⟨w', h1, h2, -⟩ := tabSwitched_title _ edt x b
    exact ⟨a, c, w', h1, by rw [h2, a, unescapeAmp_escapeAmp]⟩
  · intro env f edt w x hf hi
    obtain ⟨a, b, c⟩ := setTabName_title env f edt w x hf hi
    obtain ⟨w', h1, h2, -⟩ := tabSwitched_title _ edt x b
    exact ⟨a, w', h1, by rw [h2, a, unescapeAmp_escapeAmp, c]⟩

/-- On the window `sampleWorldAmp`, whose current editor 0 shows the modified
file `a&b.scad`: `setTabModified` labels the tab `a&&b.scad*` and titles the
window `a&b.scad*`, and switching to tab 0 sets that same title. -/
theorem tab_label_escape_roundtrip_witness :
    indexOf sampleWorldAmp 0 = some 0 ∧
    tabText (setTabModified (sampleEnv true true true "" .Cancel) 0 sampleWorldAmp) 0 =
      "a&&b.scad*" ∧
    (setTabModified (sampleEnv true true true "" .Cancel) 0 sampleWorldAmp).windowTitle =
      "a&b.scad*" ∧
    ∃ w', tabSwitched 0 (setTabModified (sampleEnv true true true "" .Cancel) 0 sampleWorldAmp)
        = some w' ∧ w'.windowTitle = "a&b.scad*" :=
  have h := tab_label_escape_roundtrip.2.2.1 (sampleEnv true true true "" .Cancel) 0
    sampleWorldAmp 0 (by decide)
  ⟨by decide, h.1.trans (by decide), (h.2.1 (by decide)).trans (by decide),
   let ⟨w', h1, h2⟩ := h.2.2
   ⟨w', h1, h2.trans (by decide)⟩⟩

end TabManager
